import Mathlib

/-
  Verification development for the SwanProjects Jupyter server extension
  (src/swanprojects/handlers.py).

  The filesystem is modelled extensionally: a finite list of existing
  directories and a finite association list from file paths to their string
  contents.  Paths are lists of components; the handler code concatenates
  strings with "/", which corresponds to appending components as long as the
  project names contain no slash (the shape produced by the frontend).

  Each handler (`CreateProjectHandler.post`, `EditProjectHandler.post`) is a
  pure function from the server environment, the parsed JSON request body,
  the filesystem state and the result of the spawned subprocess to a
  `HandlerResult` recording the final filesystem, the trace of performed
  filesystem mutations and subprocess spawns (with the environment the child
  receives), the log lines, and the HTTP outcome (the serialized JSON body on
  success, the uncaught Python exception otherwise).
-/

namespace SwanProjects

abbrev Path := List String

/-- `underDir root p` holds when `root` is a prefix of `p`, that is, when the
filesystem object at `p` is `root` itself or lives inside the directory
`root`. -/
def underDir : Path → Path → Bool
  | [], _ => true
  | _ :: _, [] => false
  | a :: as, b :: bs => a == b && underDir as bs

/-- All prefixes of a path, from `[]` up to the path itself (the chain of
directories `os.makedirs` creates). -/
def prefixesOf (p : Path) : List Path :=
  (List.range (p.length + 1)).map (fun k => p.take k)

/-- Extensional filesystem state: the set of existing directories and the
contents of the existing regular files. -/
structure FS where
  dirs : List Path
  files : List (Path × String)
deriving DecidableEq

def FS.isDir (fs : FS) (p : Path) : Bool :=
  fs.dirs.contains p

def FS.readFile (fs : FS) (p : Path) : Option String :=
  (fs.files.find? (fun kv => kv.1 == p)).map (fun kv => kv.2)

def FS.isFile (fs : FS) (p : Path) : Bool :=
  (fs.readFile p).isSome

/-- `os.path.exists`. -/
def FS.pathExists (fs : FS) (p : Path) : Bool :=
  fs.isDir p || fs.isFile p

/-- `os.makedirs(p)` (no `exist_ok`): raises `FileExistsError` when the target
already exists, raises when an ancestor is a regular file, and otherwise
creates the whole chain of missing directories. -/
def FS.makedirsOp (fs : FS) (p : Path) : Except String FS :=
  if fs.pathExists p then .error "FileExistsError"
  else if (prefixesOf p).any (fun q => fs.isFile q) then .error "NotADirectoryError"
  else .ok { fs with
    dirs := fs.dirs ++ (prefixesOf p).filter (fun q => !(fs.dirs.contains q)) }

/-- `open(p, "w")` / `open(p, "w+")` followed by a full write: raises when `p`
is a directory or when the parent directory does not exist, and otherwise
replaces the contents of `p`. -/
def FS.writeFileOp (fs : FS) (p : Path) (content : String) : Except String FS :=
  if fs.isDir p then .error "IsADirectoryError"
  else if fs.isDir p.dropLast then
    .ok { fs with files := (p, content) :: fs.files.filter (fun kv => !(kv.1 == p)) }
  else .error "FileNotFoundError"

/-- Erase the whole subtree rooted at `p`. -/
def FS.removeSubtree (fs : FS) (p : Path) : FS :=
  { dirs := fs.dirs.filter (fun d => !(underDir p d)),
    files := fs.files.filter (fun kv => !(underDir p kv.1)) }

/-- `shutil.rmtree(p)`: raises unless `p` is a directory. -/
def FS.rmtreeOp (fs : FS) (p : Path) : Except String FS :=
  if fs.isDir p then .ok (fs.removeSubtree p) else .error "NotADirectoryError"

/-- Substitute the prefix `old` of a path by `new` (the effect of
`os.rename old new` on each object inside `old`). -/
def replacePrefix (old new p : Path) : Path :=
  if underDir old p then new ++ p.drop old.length else p

/-- `os.rename(old, new)`: requires the source to exist and the target not to
exist, then transports the whole subtree.  (POSIX additionally allows the
target to be an existing empty directory; the handlers never rely on that.) -/
def FS.renameOp (fs : FS) (old new : Path) : Except String FS :=
  if !(fs.pathExists old) then .error "FileNotFoundError"
  else if fs.pathExists new then .error "FileExistsError"
  else .ok
    { dirs := fs.dirs.map (replacePrefix old new),
      files := fs.files.map (fun kv => (replacePrefix old new kv.1, kv.2)) }

/-- Well-formedness of a filesystem state, true of every state a real POSIX
filesystem can be in: no duplicate directory entries or file entries, every
non-root object has its parent directory present, and no path is both a file
and a directory. -/
def FS.wf (fs : FS) : Prop :=
  fs.dirs.Nodup ∧
  (fs.files.map Prod.fst).Nodup ∧
  (∀ p ∈ fs.dirs, p ≠ [] → p.dropLast ∈ fs.dirs) ∧
  (∀ kv ∈ fs.files, kv.1 ≠ [] ∧ kv.1.dropLast ∈ fs.dirs ∧ kv.1 ∉ fs.dirs)

instance (fs : FS) : Decidable fs.wf := by
  unfold FS.wf
  infer_instance

/-! ### JSON serialization (the fragment of `json.dumps` the handlers use) -/

def hexDigit (n : Nat) : Char :=
  if n < 10 then Char.ofNat (48 + n) else Char.ofNat (87 + n)

def uEscape (n : Nat) : String :=
  "\\u" ++ String.mk [hexDigit (n / 4096 % 16), hexDigit (n / 256 % 16),
                      hexDigit (n / 16 % 16), hexDigit (n % 16)]

/-- Escaping of one character inside a JSON string literal, as `json.dumps`
does with the default `ensure_ascii=True` (characters outside `0x20`–`0x7e`
become `\uXXXX`, astral characters become a surrogate pair). -/
def escapeChar (c : Char) : String :=
  if c = Char.ofNat 34 then "\\\""
  else if c = Char.ofNat 92 then "\\\\"
  else if c = Char.ofNat 10 then "\\n"
  else if c = Char.ofNat 9 then "\\t"
  else if c = Char.ofNat 13 then "\\r"
  else if c.toNat = 8 then "\\b"
  else if c.toNat = 12 then "\\f"
  else if c.toNat < 32 then uEscape c.toNat
  else if c.toNat < 127 then String.mk [c]
  else if c.toNat < 65536 then uEscape c.toNat
  else uEscape (55296 + (c.toNat - 65536) / 1024) ++ uEscape (56320 + (c.toNat - 65536) % 1024)

def jsonStr (s : String) : String :=
  "\"" ++ String.join (s.data.map escapeChar) ++ "\""

/-- `json.dumps(dict, indent=4)` on a string-valued dict, keys in the order of
the association list. -/
def dumpsObjIndent4 (kvs : List (String × String)) : String :=
  match kvs with
  | [] => "\x7b\x7d"
  | _ => "\x7b\n" ++
      String.intercalate ",\n"
        (kvs.map (fun kv => "    " ++ jsonStr kv.1 ++ ": " ++ jsonStr kv.2)) ++
      "\n\x7d"

/-- `json.dumps(dict)` with the default separators, keys in insertion order. -/
def dumpsObjCompact (kvs : List (String × String)) : String :=
  match kvs with
  | [] => "\x7b\x7d"
  | _ => "\x7b" ++
      String.intercalate ", "
        (kvs.map (fun kv => jsonStr kv.1 ++ ": " ++ jsonStr kv.2)) ++
      "\x7d"

/-- Code-point lexicographic comparison, the ordering Python uses on
strings. -/
def charsLt : List Char → List Char → Bool
  | [], [] => false
  | [], _ :: _ => true
  | _ :: _, [] => false
  | a :: as, b :: bs =>
      if a.toNat = b.toNat then charsLt as bs else decide (a.toNat < b.toNat)

def strLt (a b : String) : Bool :=
  charsLt a.data b.data

def insertByKey (kv : String × String) : List (String × String) → List (String × String)
  | [] => [kv]
  | x :: xs => if strLt x.1 kv.1 then x :: insertByKey kv xs else kv :: x :: xs

/-- Key ordering applied by `json.dumps(..., sort_keys=True)`. -/
def sortByKey (kvs : List (String × String)) : List (String × String) :=
  kvs.foldr insertByKey []

/-! ### Request bodies, environment, subprocess, events -/

/-- The server process environment (`os.environ`). -/
structure Environ where
  vars : List (String × String)
deriving DecidableEq

def Environ.get? (e : Environ) (k : String) : Option String :=
  (e.vars.find? (fun kv => kv.1 == k)).map (fun kv => kv.2)

structure CreateRequest where
  name : String
  stack : String
  platform : String
  release : String
  user_script : String
deriving DecidableEq

structure EditRequest where
  old_name : String
  name : String
  stack : String
  platform : String
  release : String
  user_script : String
deriving DecidableEq

/-- Result of the spawned `swan_kmspecs` process (`proc.wait()` exit status
and the decoded stdout). -/
structure ProcResult where
  exitCode : Int
  stdout : String
deriving DecidableEq

/-- Observable side effects of a handler: filesystem mutations performed, and
subprocess spawns together with the environment the child process receives. -/
inductive Event where
  | makedirsEv (p : Path)
  | writeFileEv (p : Path)
  | renameEv (src dst : Path)
  | rmtreeEv (p : Path)
  | subprocessEv (argv : List String) (childEnv : List (String × String))
deriving DecidableEq

def Event.isMutation : Event → Bool
  | .subprocessEv _ _ => false
  | _ => true

def mutationCount (t : List Event) : Nat :=
  (t.filter Event.isMutation).length

def subprocessCount (t : List Event) : Nat :=
  (t.filter (fun e => !(e.isMutation))).length

def subprocessEnvs (t : List Event) : List (List (String × String)) :=
  t.filterMap (fun e =>
    match e with
    | .subprocessEv _ ce => some ce
    | _ => none)

def hasRenameEv (t : List Event) : Bool :=
  t.any (fun e =>
    match e with
    | .renameEv _ _ => true
    | _ => false)

instance : DecidableEq (Except String String) := fun a b =>
  match a, b with
  | .ok x, .ok y =>
      if h : x = y then .isTrue (by rw [h]) else .isFalse (by intro hc; cases hc; exact h rfl)
  | .ok _, .error _ => .isFalse (by intro hc; cases hc)
  | .error _, .ok _ => .isFalse (by intro hc; cases hc)
  | .error x, .error y =>
      if h : x = y then .isTrue (by rw [h]) else .isFalse (by intro hc; cases hc; exact h rfl)

/-- Result of one handler request. -/
structure HandlerResult where
  fs : FS
  trace : List Event
  log : List String
  outcome : Except String String
deriving DecidableEq

def isOk (r : Except String String) : Bool :=
  match r with
  | .ok _ => true
  | .error _ => false

/-! ### Paths and payloads used by the handlers -/

/-- Decompose an absolute path string (the value of `$HOME`) into components;
the handlers build paths by string concatenation with `/`. -/
def splitSlashAux : List Char → List Char → List String
  | [], acc => [String.mk acc.reverse]
  | c :: cs, acc =>
      if c = Char.ofNat 47 then String.mk acc.reverse :: splitSlashAux cs []
      else splitSlashAux cs (c :: acc)

def pathOf (s : String) : Path :=
  (splitSlashAux s.data []).filter (fun c => !(c == ""))

/-- `os.environ["HOME"] + "/SWAN_projects/" + name`. -/
def projectDir (home name : String) : Path :=
  pathOf home ++ ["SWAN_projects", name]

/-- `project_dir + "/.local/share/jupyter/kernels"`. -/
def kernelsDir (home name : String) : Path :=
  projectDir home name ++ [".local", "share", "jupyter", "kernels"]

/-- `project_dir + os.path.sep + ".swanproject"`. -/
def swanProjectFilePath (home name : String) : Path :=
  projectDir home name ++ [".swanproject"]

/-- `project_dir + os.path.sep + ".userscript"`. -/
def userScriptFilePath (home name : String) : Path :=
  projectDir home name ++ [".userscript"]

/-- `{'stack': stack, 'release': release, 'platform': platform}` in insertion
order. -/
def swan_project_content (stack release platform : String) : List (String × String) :=
  [("stack", stack), ("release", release), ("platform", platform)]

/-- `json.dumps(swan_project_content, indent=4, sort_keys=True)`. -/
def swanProjectFileContent (stack release platform : String) : String :=
  dumpsObjIndent4 (sortByKey (swan_project_content stack release platform))

def createResponse (name : String) : String :=
  dumpsObjCompact [("project_dir", "SWAN_projects/" ++ name),
                   ("msg", "created project: " ++ name)]

def editResponse (name : String) : String :=
  dumpsObjCompact [("project_dir", "SWAN_projects/" ++ name),
                   ("msg", "edited project: " ++ name)]

/-- One optional `NAME=value` assignment for the `env -i` invocation: present
exactly when the variable is set in the server environment (the
`if NAME in os.environ` checks of the create handler). -/
def envEntry (env : Environ) (k : String) : List (String × String) :=
  match env.get? k with
  | some v => [(k, v)]
  | none => []

/-- The `NAME=value` assignments the create handler passes to `env -i` for the
EOS OAuth variables, in the order the code checks them. -/
def oauthAssignments (env : Environ) : List (String × String) :=
  envEntry env "OAUTH2_FILE" ++ envEntry env "OAUTH2_TOKEN" ++
    envEntry env "OAUTH_INSPECTION_ENDPOINT"

/-- The argv list built by the create handler. -/
def createCommand (env : Environ) (home name : String) : List String :=
  ["env", "-i", "HOME=" ++ home] ++
  (oauthAssignments env).map (fun kv => kv.1 ++ "=" ++ kv.2) ++
  ["/bin/bash", "-c", "swan_kmspecs --project_name " ++ name]

/-- Environment of the child spawned by the create handler: `env -i` gives the
child exactly the listed assignments. -/
def createChildEnv (env : Environ) (home : String) : List (String × String) :=
  ("HOME", home) :: oauthAssignments env

/-- The argv list built by the edit handler (no `env -i`: the child inherits
`os.environ` whole, since `subprocess.Popen` is called without `env=`). -/
def editCommand (name : String) : List String :=
  ["swan_kmspecs", "--project_name", name]

/-! ### The handlers -/

/-- `CreateProjectHandler.post` from src/swanprojects/handlers.py: create the
project directory, write `.swanproject` and `.userscript`, then spawn
`swan_kmspecs` through `env -i` with a filtered environment.  An uncaught
Python exception aborts the remaining steps and keeps the mutations already
made. -/
def CreateProjectHandler.post (env : Environ) (req : CreateRequest) (fs : FS)
    (proc : ProcResult) : HandlerResult :=
  match env.get? "HOME" with
  | none => ⟨fs, [], [], .error "KeyError: HOME"⟩
  | some home =>
    match fs.makedirsOp (projectDir home req.name) with
    | .error e => ⟨fs, [], [], .error e⟩
    | .ok fs1 =>
      match fs1.writeFileOp (swanProjectFilePath home req.name)
          (swanProjectFileContent req.stack req.release req.platform) with
      | .error e => ⟨fs1, [.makedirsEv (projectDir home req.name)], [], .error e⟩
      | .ok fs2 =>
        match fs2.writeFileOp (userScriptFilePath home req.name) req.user_script with
        | .error e =>
            ⟨fs2,
             [.makedirsEv (projectDir home req.name),
              .writeFileEv (swanProjectFilePath home req.name)], [], .error e⟩
        | .ok fs3 =>
            ⟨fs3,
             [.makedirsEv (projectDir home req.name),
              .writeFileEv (swanProjectFilePath home req.name),
              .writeFileEv (userScriptFilePath home req.name),
              .subprocessEv (createCommand env home req.name) (createChildEnv env home)],
             ["swan_kmspecs output: " ++ proc.stdout],
             .ok (createResponse req.name)⟩

/-- The `if os.path.exists(...): shutil.rmtree(...)` step of the edit
handler. -/
def removeKernelIfExists (fs : FS) (p : Path) : Except String (FS × List Event) :=
  if fs.pathExists p then
    match fs.rmtreeOp p with
    | .error e => .error e
    | .ok fsr => .ok (fsr, [Event.rmtreeEv p])
  else .ok (fs, [])

/-- The tail of `EditProjectHandler.post` after the optional rename: remove
the generated `python2`/`python3` kernel directories when present, rewrite
`.swanproject` and `.userscript`, then spawn `swan_kmspecs` (inheriting the
whole server environment). -/
def editAfterRename (env : Environ) (req : EditRequest) (home : String) (fs1 : FS)
    (tr1 : List Event) (proc : ProcResult) : HandlerResult :=
  match removeKernelIfExists fs1 (kernelsDir home req.name ++ ["python2"]) with
  | .error e => ⟨fs1, tr1, [], .error e⟩
  | .ok (fs2, tr2) =>
    match removeKernelIfExists fs2 (kernelsDir home req.name ++ ["python3"]) with
    | .error e => ⟨fs2, tr1 ++ tr2, [], .error e⟩
    | .ok (fs3, tr3) =>
      match fs3.writeFileOp (swanProjectFilePath home req.name)
          (swanProjectFileContent req.stack req.release req.platform) with
      | .error e => ⟨fs3, tr1 ++ tr2 ++ tr3, [], .error e⟩
      | .ok fs4 =>
        match fs4.writeFileOp (userScriptFilePath home req.name) req.user_script with
        | .error e =>
            ⟨fs4, tr1 ++ tr2 ++ tr3 ++ [.writeFileEv (swanProjectFilePath home req.name)],
             [], .error e⟩
        | .ok fs5 =>
            ⟨fs5,
             tr1 ++ tr2 ++ tr3 ++
               [.writeFileEv (swanProjectFilePath home req.name),
                .writeFileEv (userScriptFilePath home req.name),
                .subprocessEv (editCommand req.name) env.vars],
             ["result " ++ proc.stdout],
             .ok (editResponse req.name)⟩

/-- `EditProjectHandler.post` from src/swanprojects/handlers.py: optionally
rename the project directory, then regenerate metadata, user script and
kernel specs. -/
def EditProjectHandler.post (env : Environ) (req : EditRequest) (fs : FS)
    (proc : ProcResult) : HandlerResult :=
  match env.get? "HOME" with
  | none => ⟨fs, [], [], .error "KeyError: HOME"⟩
  | some home =>
    if req.old_name ≠ req.name then
      match fs.renameOp (projectDir home req.old_name) (projectDir home req.name) with
      | .error e => ⟨fs, [], [], .error e⟩
      | .ok fs1 =>
          editAfterRename env req home fs1
            [.renameEv (projectDir home req.old_name) (projectDir home req.name)] proc
    else
      editAfterRename env req home fs [] proc

/-! ### Path lemmas -/

lemma underDir_iff_append {p q : Path} : underDir p q = true ↔ ∃ r, q = p ++ r := by
  induction p generalizing q with
  | nil => exact ⟨fun _ => ⟨q, rfl⟩, fun _ => rfl⟩
  | cons a as ih =>
    cases q with
    | nil =>
      simp only [underDir]
      constructor
      · intro h; cases h
      · rintro ⟨r, hr⟩; cases hr
    | cons b bs =>
      simp only [underDir, Bool.and_eq_true, beq_iff_eq]
      constructor
      · rintro ⟨rfl, h⟩
        obtain ⟨r, rfl⟩ := ih.mp h
        exact ⟨r, rfl⟩
      · rintro ⟨r, hr⟩
        injection hr with h1 h2
        exact ⟨h1.symm, ih.mpr ⟨r, h2⟩⟩

lemma underDir_append (p r : Path) : underDir p (p ++ r) = true :=
  underDir_iff_append.mpr ⟨r, rfl⟩

lemma underDir_refl (p : Path) : underDir p p = true := by
  simpa using underDir_append p []

lemma underDir_append_cancel (a b c : Path) : underDir (a ++ b) (a ++ c) = underDir b c := by
  induction a with
  | nil => rfl
  | cons x xs ih => simpa [underDir] using ih

lemma underDir_length_le {p q : Path} (h : underDir p q = true) : p.length ≤ q.length := by
  obtain ⟨r, rfl⟩ := underDir_iff_append.mp h
  simp

lemma eq_of_underDir_of_length {p q : Path} (h : underDir p q = true)
    (hl : q.length ≤ p.length) : p = q := by
  obtain ⟨r, rfl⟩ := underDir_iff_append.mp h
  cases r with
  | nil => simp
  | cons x xs => simp at hl

lemma underDir_of_append_eq {p r q s : Path} (h : p ++ r = q ++ s)
    (hl : p.length ≤ q.length) : underDir p q = true := by
  have h1 : q = List.take q.length (q ++ s) := (List.take_left q s).symm
  have h2 : q.length = p.length + (q.length - p.length) := by omega
  have h3 : List.take q.length (p ++ r) = p ++ List.take (q.length - p.length) r := by
    conv_lhs => rw [h2]
    rw [List.take_append]
  rw [← h, h3] at h1
  exact underDir_iff_append.mpr ⟨_, h1⟩

/-- Two incomparable paths stay incomparable after extending the second. -/
lemma not_underDir_extend {old new : Path} (s : Path)
    (h1 : underDir old new = false) (h2 : underDir new old = false) :
    underDir old (new ++ s) = false := by
  by_contra hc
  rw [Bool.not_eq_false] at hc
  obtain ⟨r, hr⟩ := underDir_iff_append.mp hc
  rcases le_total old.length new.length with hl | hl
  · rw [underDir_of_append_eq hr.symm hl] at h1; cases h1
  · rw [underDir_of_append_eq hr hl] at h2; cases h2

/-- Sibling directories (same parent, different last component) are
incomparable. -/
lemma siblings_not_under {base : Path} {x y : String} (hxy : x ≠ y) :
    underDir (base ++ [x]) (base ++ [y]) = false := by
  rw [underDir_append_cancel]
  simp [underDir, hxy]

lemma self_mem_prefixesOf (p : Path) : p ∈ prefixesOf p := by
  unfold prefixesOf
  refine List.mem_map.mpr ⟨p.length, ?_, List.take_length p⟩
  simp [List.mem_range]

/-! ### Association list lemmas -/

lemma find?_congr {α : Type} (p q : α → Bool) (l : List α) (h : ∀ x ∈ l, p x = q x) :
    l.find? p = l.find? q := by
  induction l with
  | nil => rfl
  | cons a as ih =>
    have ha := h a (by simp)
    simp only [List.find?]
    rw [ha]
    cases q a
    · exact ih (fun x hx => h x (by simp [hx]))
    · rfl

/-- Filtering by a predicate that keeps every entry with key `q` does not
change the result of looking up `q`. -/
lemma find?_key_filter {q : Path} (f : Path × String → Bool) (l : List (Path × String))
    (hf : ∀ kv : Path × String, kv.1 = q → f kv = true) :
    (l.filter f).find? (fun kv => kv.1 == q) = l.find? (fun kv => kv.1 == q) := by
  induction l with
  | nil => rfl
  | cons a as ih =>
    by_cases ha : a.1 = q
    · have h1 : f a = true := hf a ha
      have hbeq : (a.1 == q) = true := by simp [ha]
      rw [List.filter_cons, if_pos h1, List.find?_cons_of_pos, List.find?_cons_of_pos]
      · exact hbeq
      · exact hbeq
    · have hbeq : (a.1 == q) = false := by simp [ha]
      cases hfa : f a
      · rw [List.filter_cons, if_neg (by simp [hfa]), ih,
          List.find?_cons_of_neg _ (by simp [hbeq])]
      · rw [List.filter_cons, if_pos hfa,
          List.find?_cons_of_neg _ (by simp [hbeq]),
          List.find?_cons_of_neg _ (by simp [hbeq]), ih]

/-- Filtering by a predicate that drops every entry with key `q` makes the
lookup of `q` fail. -/
lemma find?_key_filter_none {q : Path} (f : Path × String → Bool) (l : List (Path × String))
    (hf : ∀ kv : Path × String, kv.1 = q → f kv = false) :
    (l.filter f).find? (fun kv => kv.1 == q) = none := by
  rw [List.find?_eq_none]
  intro kv hkv hbeq
  rw [List.mem_filter] at hkv
  have h1 : kv.1 = q := by simpa using hbeq
  rw [hf kv h1] at hkv
  exact Bool.false_ne_true hkv.2

lemma bool_eq_of_iff {a b : Bool} (h : a = true ↔ b = true) : a = b := by
  cases a <;> cases b <;> simp_all

/-! ### Filesystem operation lemmas -/

lemma isDir_iff_mem {fs : FS} {p : Path} : fs.isDir p = true ↔ p ∈ fs.dirs := by
  simp [FS.isDir, List.contains, List.elem_iff]

lemma readFile_eq_none_iff {fs : FS} {p : Path} :
    fs.readFile p = none ↔ ∀ kv ∈ fs.files, kv.1 ≠ p := by
  unfold FS.readFile
  rw [Option.map_eq_none', List.find?_eq_none]
  constructor
  · intro h kv hkv
    have := h kv hkv
    simpa using this
  · intro h kv hkv
    simpa using h kv hkv

lemma isFile_iff {fs : FS} {p : Path} : fs.isFile p = true ↔ ∃ kv ∈ fs.files, kv.1 = p := by
  unfold FS.isFile FS.readFile
  rw [Option.isSome_map', List.find?_isSome]
  constructor
  · rintro ⟨kv, hkv, hb⟩; exact ⟨kv, hkv, by simpa using hb⟩
  · rintro ⟨kv, hkv, hb⟩; exact ⟨kv, hkv, by simpa using hb⟩

lemma pathExists_false {fs : FS} {p : Path} (h : fs.pathExists p = false) :
    fs.isDir p = false ∧ fs.isFile p = false := by
  unfold FS.pathExists at h
  exact ⟨by cases hd : fs.isDir p <;> simp_all, by cases hf : fs.isFile p <;> simp_all⟩

lemma writeFileOp_ok {fs : FS} {p : Path} {c : String} {fs' : FS}
    (h : fs.writeFileOp p c = .ok fs') :
    fs.isDir p = false ∧ fs.isDir p.dropLast = true ∧
      fs' = { fs with files := (p, c) :: fs.files.filter (fun kv => !(kv.1 == p)) } := by
  unfold FS.writeFileOp at h
  cases h1 : fs.isDir p <;> rw [h1] at h
  · cases h2 : fs.isDir p.dropLast <;> rw [h2] at h
    · simp at h
    · simp at h
      exact ⟨rfl, rfl, h.symm⟩
  · simp at h

lemma writeFileOp_read {fs : FS} {p : Path} {c : String} {fs' : FS}
    (h : fs.writeFileOp p c = .ok fs') (q : Path) :
    fs'.readFile q = if q = p then some c else fs.readFile q := by
  obtain ⟨_, _, rfl⟩ := writeFileOp_ok h
  by_cases hq : q = p
  · subst hq
    rw [if_pos rfl]
    unfold FS.readFile
    rw [List.find?_cons_of_pos _ (by simp)]
    rfl
  · rw [if_neg hq]
    unfold FS.readFile
    rw [List.find?_cons_of_neg _ (by simp [Ne.symm hq]),
      find?_key_filter _ _ (fun kv hkv => by simp [hkv, hq])]

lemma writeFileOp_dirs {fs : FS} {p : Path} {c : String} {fs' : FS}
    (h : fs.writeFileOp p c = .ok fs') : fs'.dirs = fs.dirs := by
  obtain ⟨_, _, rfl⟩ := writeFileOp_ok h
  rfl

lemma makedirsOp_ok {fs : FS} {p : Path} {fs' : FS} (h : fs.makedirsOp p = .ok fs') :
    fs.pathExists p = false ∧ fs'.files = fs.files ∧
      (∀ q, fs'.isDir q = true ↔ (fs.isDir q = true ∨ q ∈ prefixesOf p)) := by
  unfold FS.makedirsOp at h
  cases h1 : fs.pathExists p <;> rw [h1] at h
  · cases h2 : (prefixesOf p).any (fun q => fs.isFile q) <;> rw [h2] at h
    · simp at h
      refine ⟨rfl, by rw [← h], ?_⟩
      intro q
      rw [← h]
      simp only [isDir_iff_mem, List.mem_append, List.mem_filter]
      constructor
      · rintro (hq | ⟨hq, _⟩)
        · exact Or.inl hq
        · exact Or.inr hq
      · rintro (hq | hq)
        · exact Or.inl hq
        · by_cases hmem : q ∈ fs.dirs
          · exact Or.inl hmem
          · exact Or.inr ⟨hq, by simp [hmem]⟩
    · simp at h
  · simp at h

lemma removeSubtree_read (fs : FS) (p q : Path) :
    (fs.removeSubtree p).readFile q =
      if underDir p q = true then none else fs.readFile q := by
  by_cases hq : underDir p q = true
  · rw [if_pos hq]
    unfold FS.removeSubtree FS.readFile
    rw [find?_key_filter_none _ _ (fun kv hkv => by simp [hkv, hq])]
    rfl
  · rw [if_neg hq]
    have hq' : underDir p q = false := by simpa using hq
    unfold FS.removeSubtree FS.readFile
    rw [find?_key_filter _ _ (fun kv hkv => by rw [hkv, hq']; rfl)]

lemma removeSubtree_isDir (fs : FS) (p q : Path) :
    (fs.removeSubtree p).isDir q = ((!(underDir p q)) && fs.isDir q) := by
  refine bool_eq_of_iff ?_
  have hL : (fs.removeSubtree p).isDir q = true ↔
      (q ∈ fs.dirs ∧ (!(underDir p q)) = true) := by
    rw [isDir_iff_mem]
    exact List.mem_filter
  rw [hL, Bool.and_eq_true, ← isDir_iff_mem]
  tauto

lemma rmtreeOp_ok {fs : FS} {p : Path} {fs' : FS} (h : fs.rmtreeOp p = .ok fs') :
    fs.isDir p = true ∧ fs' = fs.removeSubtree p := by
  unfold FS.rmtreeOp at h
  cases h1 : fs.isDir p <;> rw [h1] at h
  · simp at h
  · simp at h
    exact ⟨rfl, h.symm⟩

lemma renameOp_ok {fs : FS} {old new : Path} {fs' : FS}
    (h : fs.renameOp old new = .ok fs') :
    fs.pathExists old = true ∧ fs.pathExists new = false ∧
      fs' = { dirs := fs.dirs.map (replacePrefix old new),
              files := fs.files.map (fun kv => (replacePrefix old new kv.1, kv.2)) } := by
  unfold FS.renameOp at h
  cases h1 : fs.pathExists old <;> rw [h1] at h
  · simp at h
  · cases h2 : fs.pathExists new <;> rw [h2] at h
    · simp at h
      exact ⟨rfl, rfl, h.symm⟩
    · simp at h

lemma replacePrefix_append (old new r : Path) :
    replacePrefix old new (old ++ r) = new ++ r := by
  unfold replacePrefix
  rw [if_pos (underDir_append old r), List.drop_left]

lemma replacePrefix_of_not_under {old new p : Path} (h : underDir old p = false) :
    replacePrefix old new p = p := by
  unfold replacePrefix
  rw [h]
  rfl

/-- Generic lookup lemma for `renameOp`: when the prefix substitution puts the
keys mapping to `q` in bijection with the keys equal to `q'`, the renamed
filesystem reads `q` as the original read `q'`. -/
lemma renameOp_read_eq {fs : FS} {old new : Path} {fs' : FS}
    (h : fs.renameOp old new = .ok fs') (q q' : Path)
    (hpred : ∀ kv ∈ fs.files, (replacePrefix old new kv.1 == q) = (kv.1 == q')) :
    fs'.readFile q = fs.readFile q' := by
  obtain ⟨_, _, rfl⟩ := renameOp_ok h
  show (((fs.files.map (fun kv => (replacePrefix old new kv.1, kv.2))).find?
      (fun kv => kv.1 == q)).map (fun kv => kv.2)) = _
  rw [List.find?_map]
  rw [find?_congr ((fun kv : Path × String => kv.1 == q) ∘
      fun kv : Path × String => (replacePrefix old new kv.1, kv.2))
    (fun kv => kv.1 == q') _ (fun kv hkv => hpred kv hkv)]
  unfold FS.readFile
  rw [Option.map_map]
  rfl

/-- Generic directory lemma for `renameOp`. -/
lemma renameOp_isDir_eq {fs : FS} {old new : Path} {fs' : FS}
    (h : fs.renameOp old new = .ok fs') (q q' : Path)
    (hpred : ∀ d ∈ fs.dirs, (replacePrefix old new d = q ↔ d = q')) :
    fs'.isDir q = fs.isDir q' := by
  obtain ⟨_, _, rfl⟩ := renameOp_ok h
  refine bool_eq_of_iff ?_
  rw [isDir_iff_mem, isDir_iff_mem]
  show q ∈ fs.dirs.map (replacePrefix old new) ↔ _
  rw [List.mem_map]
  constructor
  · rintro ⟨d, hd, hrep⟩
    rw [← (hpred d hd).mp hrep]
    exact hd
  · intro hq'
    exact ⟨q', hq', (hpred q' hq').mpr rfl⟩

/-! ### Well-formedness lemmas -/

/-- In a well-formed filesystem every prefix of an existing directory is an
existing directory. -/
lemma wf_dirs_closure {fs : FS} (hwf : fs.wf) :
    ∀ (r p : Path), p ++ r ∈ fs.dirs → p ∈ fs.dirs := by
  intro r
  induction r using List.reverseRecOn with
  | nil => intro p hp; simpa using hp
  | append_singleton r x ih =>
    intro p hp
    rw [← List.append_assoc] at hp
    have hne : p ++ r ++ [x] ≠ [] := by simp
    have := hwf.2.2.1 _ hp hne
    rw [List.dropLast_concat] at this
    exact ih p this

/-- In a well-formed filesystem nothing exists strictly or loosely below a
non-existing path. -/
lemma wf_under_not_exists {fs : FS} (hwf : fs.wf) {p : Path}
    (h : fs.pathExists p = false) :
    ∀ q, underDir p q = true → fs.isDir q = false ∧ fs.readFile q = none := by
  intro q hq
  obtain ⟨r, rfl⟩ := underDir_iff_append.mp hq
  obtain ⟨hd, hf⟩ := pathExists_false h
  constructor
  · cases hdq : fs.isDir (p ++ r)
    · rfl
    · have hmem := wf_dirs_closure hwf r p (isDir_iff_mem.mp hdq)
      rw [isDir_iff_mem.mpr hmem] at hd
      cases hd
  · rw [readFile_eq_none_iff]
    intro kv hkv hkeq
    cases r using List.reverseRecOn with
    | nil =>
      rw [List.append_nil] at hkeq
      have : fs.isFile p = true := isFile_iff.mpr ⟨kv, hkv, hkeq⟩
      rw [this] at hf; cases hf
    | append_singleton r x =>
      have hne : kv.1 ≠ [] := by rw [hkeq]; simp
      have hdl := (hwf.2.2.2 kv hkv).2.1
      rw [hkeq, ← List.append_assoc, List.dropLast_concat] at hdl
      have hmem := wf_dirs_closure hwf r p hdl
      rw [isDir_iff_mem.mpr hmem] at hd
      cases hd

/-- After a successful rename of `old` to `new` on a well-formed filesystem,
the subtree below `new` reads exactly as the subtree below `old` did
before. -/
lemma renameOp_transport {fs : FS} {old new : Path} {fs' : FS}
    (hwf : fs.wf) (h : fs.renameOp old new = .ok fs') (s : Path) :
    fs'.readFile (new ++ s) = fs.readFile (old ++ s) ∧
      fs'.isDir (new ++ s) = fs.isDir (old ++ s) := by
  obtain ⟨hold, hnew, _⟩ := renameOp_ok h
  have hnothing := wf_under_not_exists hwf hnew
  constructor
  · refine renameOp_read_eq h _ _ ?_
    intro kv hkv
    by_cases hu : underDir old kv.1 = true
    · obtain ⟨r, hr⟩ := underDir_iff_append.mp hu
      rw [hr, replacePrefix_append]
      refine bool_eq_of_iff ?_
      simp only [beq_iff_eq]
      constructor
      · intro he; rw [List.append_cancel_left he]
      · intro he; rw [List.append_cancel_left he]
    · have hu' : underDir old kv.1 = false := by simpa using hu
      rw [replacePrefix_of_not_under hu']
      have h1 : (kv.1 == new ++ s) = false := by
        refine beq_eq_false_iff_ne.mpr ?_
        intro he
        have hn := (hnothing (new ++ s) (underDir_append new s)).2
        rw [readFile_eq_none_iff] at hn
        exact hn kv hkv he
      have h2 : (kv.1 == old ++ s) = false := by
        refine beq_eq_false_iff_ne.mpr ?_
        intro he
        rw [he, underDir_append] at hu'
        cases hu'
      rw [h1, h2]
  · refine renameOp_isDir_eq h _ _ ?_
    intro d hd
    by_cases hu : underDir old d = true
    · obtain ⟨r, hr⟩ := underDir_iff_append.mp hu
      subst hr
      rw [replacePrefix_append]
      constructor
      · intro he; rw [List.append_cancel_left he]
      · intro he; rw [List.append_cancel_left he]
    · have hu' : underDir old d = false := by simpa using hu
      rw [replacePrefix_of_not_under hu']
      constructor
      · intro he
        exfalso
        rw [he] at hd
        have := (hnothing (new ++ s) (underDir_append new s)).1
        rw [isDir_iff_mem.mpr hd] at this
        cases this
      · intro he
        exfalso
        rw [he, underDir_append] at hu'
        cases hu'

/-- A rename leaves every path outside both subtrees untouched. -/
lemma renameOp_frame {fs : FS} {old new : Path} {fs' : FS}
    (h : fs.renameOp old new = .ok fs') (q : Path)
    (hq1 : underDir old q = false) (hq2 : underDir new q = false) :
    fs'.readFile q = fs.readFile q ∧ fs'.isDir q = fs.isDir q := by
  constructor
  · refine renameOp_read_eq h _ _ ?_
    intro kv _
    by_cases hu : underDir old kv.1 = true
    · obtain ⟨r, hr⟩ := underDir_iff_append.mp hu
      rw [hr, replacePrefix_append]
      have h1 : (new ++ r == q) = false := by
        refine beq_eq_false_iff_ne.mpr ?_
        intro he
        rw [← he, underDir_append] at hq2
        cases hq2
      have h2 : (old ++ r == q) = false := by
        refine beq_eq_false_iff_ne.mpr ?_
        intro he
        rw [← he, underDir_append] at hq1
        cases hq1
      rw [h1, h2]
    · have hu' : underDir old kv.1 = false := by simpa using hu
      rw [replacePrefix_of_not_under hu']
  · refine renameOp_isDir_eq h _ _ ?_
    intro d _
    by_cases hu : underDir old d = true
    · obtain ⟨r, hr⟩ := underDir_iff_append.mp hu
      subst hr
      rw [replacePrefix_append]
      constructor
      · intro he
        exfalso
        rw [← he, underDir_append] at hq2
        cases hq2
      · intro he
        exfalso
        rw [← he, underDir_append] at hq1
        cases hq1
    · have hu' : underDir old d = false := by simpa using hu
      rw [replacePrefix_of_not_under hu']

/-! ### Distinctness of the paths the handlers touch -/

lemma not_underDir_of_length {p q : Path} (h : q.length < p.length) : underDir p q = false := by
  cases hu : underDir p q
  · rfl
  · have := underDir_length_le hu
    omega

lemma swanfile_ne_userfile (home name : String) :
    swanProjectFilePath home name ≠ userScriptFilePath home name := by
  unfold swanProjectFilePath userScriptFilePath
  intro h
  have h2 := List.append_cancel_left h
  injection h2 with h3 _
  exact absurd h3 (by decide)

lemma swanfile_ne_kernels (home name : String) (s : Path) :
    swanProjectFilePath home name ≠ kernelsDir home name ++ s := by
  unfold swanProjectFilePath kernelsDir
  rw [List.append_assoc]
  intro h
  have h2 := List.append_cancel_left h
  injection h2 with h3 _
  exact absurd h3 (by decide)

lemma userfile_ne_kernels (home name : String) (s : Path) :
    userScriptFilePath home name ≠ kernelsDir home name ++ s := by
  unfold userScriptFilePath kernelsDir
  rw [List.append_assoc]
  intro h
  have h2 := List.append_cancel_left h
  injection h2 with h3 _
  exact absurd h3 (by decide)

/-- The kernel-spec subtrees lie strictly below the project directory, so the
metadata and user-script files are never below them. -/
lemma swanfile_not_under_kernelSub (home name : String) (x : String) :
    underDir (kernelsDir home name ++ [x]) (swanProjectFilePath home name) = false := by
  apply not_underDir_of_length
  unfold kernelsDir swanProjectFilePath projectDir
  simp

lemma userfile_not_under_kernelSub (home name : String) (x : String) :
    underDir (kernelsDir home name ++ [x]) (userScriptFilePath home name) = false := by
  apply not_underDir_of_length
  unfold kernelsDir userScriptFilePath projectDir
  simp

/-! ### Step lemmas for the handlers -/

lemma removeKernelIfExists_ok {fs : FS} {p : Path} {fs' : FS} {tr : List Event}
    (h : removeKernelIfExists fs p = .ok (fs', tr)) :
    (fs.pathExists p = false ∧ fs' = fs ∧ tr = []) ∨
    (fs.isDir p = true ∧ fs' = fs.removeSubtree p ∧ tr = [Event.rmtreeEv p]) := by
  unfold removeKernelIfExists at h
  cases hex : fs.pathExists p <;> rw [hex] at h
  · simp at h
    exact Or.inl ⟨rfl, h.1.symm, h.2⟩
  · cases hrm : fs.rmtreeOp p <;> rw [hrm] at h
    · simp at h
    · simp at h
      obtain ⟨hd, hfs⟩ := rmtreeOp_ok hrm
      exact Or.inr ⟨hd, by rw [← h.1, hfs], h.2.symm⟩

/-- A successful kernel-removal step leaves every path outside the removed
subtree untouched. -/
lemma removeKernelIfExists_frame {fs : FS} {p : Path} {fs' : FS} {tr : List Event}
    (h : removeKernelIfExists fs p = .ok (fs', tr)) (q : Path)
    (hq : underDir p q = false) :
    fs'.readFile q = fs.readFile q ∧ fs'.isDir q = fs.isDir q := by
  rcases removeKernelIfExists_ok h with ⟨_, rfl, _⟩ | ⟨_, rfl, _⟩
  · exact ⟨rfl, rfl⟩
  · rw [removeSubtree_read, if_neg (by simp [hq]), removeSubtree_isDir, hq]
    simp

/-- After a successful kernel-removal step nothing is left below the target
(provided that, in the case where the target did not exist, nothing was there
to begin with). -/
lemma removeKernelIfExists_under {fs : FS} {p : Path} {fs' : FS} {tr : List Event}
    (h : removeKernelIfExists fs p = .ok (fs', tr)) (q : Path) (hq : underDir p q = true)
    (hnone : fs.pathExists p = false → fs.isDir q = false ∧ fs.readFile q = none) :
    fs'.isDir q = false ∧ fs'.readFile q = none := by
  rcases removeKernelIfExists_ok h with ⟨hex, rfl, _⟩ | ⟨_, rfl, _⟩
  · exact hnone hex
  · rw [removeSubtree_read, if_pos hq, removeSubtree_isDir, hq]
    simp

/-- Successful run of the create handler, decomposed into its elementary
filesystem steps. -/
lemma createPost_ok {env : Environ} {req : CreateRequest} {fs : FS} {proc : ProcResult}
    (h : isOk (CreateProjectHandler.post env req fs proc).outcome = true) :
    ∃ home fs1 fs2 fs3,
      env.get? "HOME" = some home ∧
      fs.makedirsOp (projectDir home req.name) = .ok fs1 ∧
      fs1.writeFileOp (swanProjectFilePath home req.name)
        (swanProjectFileContent req.stack req.release req.platform) = .ok fs2 ∧
      fs2.writeFileOp (userScriptFilePath home req.name) req.user_script = .ok fs3 ∧
      CreateProjectHandler.post env req fs proc =
        ⟨fs3,
         [.makedirsEv (projectDir home req.name),
          .writeFileEv (swanProjectFilePath home req.name),
          .writeFileEv (userScriptFilePath home req.name),
          .subprocessEv (createCommand env home req.name) (createChildEnv env home)],
         ["swan_kmspecs output: " ++ proc.stdout],
         .ok (createResponse req.name)⟩ := by
  cases hh : env.get? "HOME" with
  | none =>
    simp only [CreateProjectHandler.post, hh, isOk] at h
    exact Bool.noConfusion h
  | some home =>
    cases hm : fs.makedirsOp (projectDir home req.name) with
    | error e =>
      simp only [CreateProjectHandler.post, hh, hm, isOk] at h
      exact Bool.noConfusion h
    | ok fs1 =>
      cases hw1 : fs1.writeFileOp (swanProjectFilePath home req.name)
          (swanProjectFileContent req.stack req.release req.platform) with
      | error e =>
        simp only [CreateProjectHandler.post, hh, hm, hw1, isOk] at h
        exact Bool.noConfusion h
      | ok fs2 =>
        cases hw2 : fs2.writeFileOp (userScriptFilePath home req.name) req.user_script with
        | error e =>
          simp only [CreateProjectHandler.post, hh, hm, hw1, hw2, isOk] at h
          exact Bool.noConfusion h
        | ok fs3 =>
          exact ⟨home, fs1, fs2, fs3, rfl, hm, hw1, hw2, by
            simp only [CreateProjectHandler.post, hh, hm, hw1, hw2]⟩

/-- When the target project directory already exists, the create handler
raises `FileExistsError` before mutating anything. -/
lemma createPost_exists {env : Environ} {req : CreateRequest} {fs : FS} {proc : ProcResult}
    {home : String} (hh : env.get? "HOME" = some home)
    (hex : fs.pathExists (projectDir home req.name) = true) :
    CreateProjectHandler.post env req fs proc = ⟨fs, [], [], .error "FileExistsError"⟩ := by
  have hm : fs.makedirsOp (projectDir home req.name) = .error "FileExistsError" := by
    unfold FS.makedirsOp
    rw [hex]
    rfl
  simp only [CreateProjectHandler.post, hh, hm]

/-- Successful run of the tail of the edit handler, decomposed into its
elementary filesystem steps. -/
lemma editAfterRename_ok {env : Environ} {req : EditRequest} {home : String} {fs1 : FS}
    {tr1 : List Event} {proc : ProcResult}
    (h : isOk (editAfterRename env req home fs1 tr1 proc).outcome = true) :
    ∃ fs2 tr2 fs3 tr3 fs4 fs5,
      removeKernelIfExists fs1 (kernelsDir home req.name ++ ["python2"]) = .ok (fs2, tr2) ∧
      removeKernelIfExists fs2 (kernelsDir home req.name ++ ["python3"]) = .ok (fs3, tr3) ∧
      fs3.writeFileOp (swanProjectFilePath home req.name)
        (swanProjectFileContent req.stack req.release req.platform) = .ok fs4 ∧
      fs4.writeFileOp (userScriptFilePath home req.name) req.user_script = .ok fs5 ∧
      editAfterRename env req home fs1 tr1 proc =
        ⟨fs5,
         tr1 ++ tr2 ++ tr3 ++
           [.writeFileEv (swanProjectFilePath home req.name),
            .writeFileEv (userScriptFilePath home req.name),
            .subprocessEv (editCommand req.name) env.vars],
         ["result " ++ proc.stdout],
         .ok (editResponse req.name)⟩ := by
  cases h2 : removeKernelIfExists fs1 (kernelsDir home req.name ++ ["python2"]) with
  | error e =>
    simp only [editAfterRename, h2, isOk] at h
    exact Bool.noConfusion h
  | ok pr2 =>
    obtain ⟨fs2, tr2⟩ := pr2
    cases h3 : removeKernelIfExists fs2 (kernelsDir home req.name ++ ["python3"]) with
    | error e =>
      simp only [editAfterRename, h2, h3, isOk] at h
      exact Bool.noConfusion h
    | ok pr3 =>
      obtain ⟨fs3, tr3⟩ := pr3
      cases h4 : fs3.writeFileOp (swanProjectFilePath home req.name)
          (swanProjectFileContent req.stack req.release req.platform) with
      | error e =>
        simp only [editAfterRename, h2, h3, h4, isOk] at h
        exact Bool.noConfusion h
      | ok fs4 =>
        cases h5 : fs4.writeFileOp (userScriptFilePath home req.name) req.user_script with
        | error e =>
          simp only [editAfterRename, h2, h3, h4, h5, isOk] at h
          exact Bool.noConfusion h
        | ok fs5 =>
          exact ⟨fs2, tr2, fs3, tr3, fs4, fs5, rfl, h3, h4, h5, by
            simp only [editAfterRename, h2, h3, h4, h5]⟩

/-- Successful run of the edit handler: the optional rename step followed by a
successful run of the tail. -/
lemma editPost_ok {env : Environ} {req : EditRequest} {fs : FS} {proc : ProcResult}
    (h : isOk (EditProjectHandler.post env req fs proc).outcome = true) :
    ∃ home fs1 tr1,
      env.get? "HOME" = some home ∧
      ((req.old_name = req.name ∧ fs1 = fs ∧ tr1 = ([] : List Event)) ∨
       (req.old_name ≠ req.name ∧
        fs.renameOp (projectDir home req.old_name) (projectDir home req.name) = .ok fs1 ∧
        tr1 = [Event.renameEv (projectDir home req.old_name) (projectDir home req.name)])) ∧
      EditProjectHandler.post env req fs proc = editAfterRename env req home fs1 tr1 proc ∧
      isOk (editAfterRename env req home fs1 tr1 proc).outcome = true := by
  cases hh : env.get? "HOME" with
  | none =>
    simp only [EditProjectHandler.post, hh, isOk] at h
    exact Bool.noConfusion h
  | some home =>
    by_cases hn : req.old_name = req.name
    · have hrun : EditProjectHandler.post env req fs proc =
          editAfterRename env req home fs [] proc := by
        simp only [EditProjectHandler.post, hh, if_neg (not_not_intro hn)]
      refine ⟨home, fs, [], rfl, Or.inl ⟨hn, rfl, rfl⟩, hrun, ?_⟩
      rw [← hrun]
      exact h
    · cases hr : fs.renameOp (projectDir home req.old_name) (projectDir home req.name) with
      | error e =>
        simp only [EditProjectHandler.post, hh, if_pos hn, hr, isOk] at h
        exact Bool.noConfusion h
      | ok fs1 =>
        have hrun : EditProjectHandler.post env req fs proc =
            editAfterRename env req home fs1
              [Event.renameEv (projectDir home req.old_name) (projectDir home req.name)]
              proc := by
          simp only [EditProjectHandler.post, hh, if_pos hn, hr]
        refine ⟨home, fs1, _, rfl, Or.inr ⟨hn, hr, rfl⟩, hrun, ?_⟩
        rw [← hrun]
        exact h

lemma isDir_congr {fs fs' : FS} (h : fs'.dirs = fs.dirs) (q : Path) :
    fs'.isDir q = fs.isDir q := by
  unfold FS.isDir
  rw [h]

lemma pathExists_false_intro {fs : FS} {p : Path} (h1 : fs.isDir p = false)
    (h2 : fs.readFile p = none) : fs.pathExists p = false := by
  unfold FS.pathExists FS.isFile
  rw [h1, h2]
  rfl

lemma swanfile_dropLast (home name : String) :
    (swanProjectFilePath home name).dropLast = projectDir home name := by
  unfold swanProjectFilePath
  exact List.dropLast_concat

lemma userfile_dropLast (home name : String) :
    (userScriptFilePath home name).dropLast = projectDir home name := by
  unfold userScriptFilePath
  exact List.dropLast_concat

/-- After a successful kernel-removal step, the target path itself is gone. -/
lemma removeKernelIfExists_point {fs : FS} {p : Path} {fs' : FS} {tr : List Event}
    (h : removeKernelIfExists fs p = .ok (fs', tr)) :
    fs'.isDir p = false ∧ fs'.readFile p = none := by
  rcases removeKernelIfExists_ok h with ⟨hex, he, _⟩ | ⟨_, he, _⟩
  · subst he
    obtain ⟨hd, hf⟩ := pathExists_false hex
    refine ⟨hd, ?_⟩
    unfold FS.isFile at hf
    rw [← Option.not_isSome_iff_eq_none, hf]
    simp
  · subst he
    rw [removeSubtree_read, if_pos (underDir_refl p), removeSubtree_isDir, underDir_refl]
    simp

/-- Facts about the final filesystem of a successful create chain. -/
lemma create_chain_final {fs fs1 fs2 fs3 : FS} {home : String} {req : CreateRequest}
    (hm : fs.makedirsOp (projectDir home req.name) = .ok fs1)
    (hw1 : fs1.writeFileOp (swanProjectFilePath home req.name)
      (swanProjectFileContent req.stack req.release req.platform) = .ok fs2)
    (hw2 : fs2.writeFileOp (userScriptFilePath home req.name) req.user_script = .ok fs3) :
    fs3.readFile (swanProjectFilePath home req.name) =
      some (swanProjectFileContent req.stack req.release req.platform) ∧
    fs3.readFile (userScriptFilePath home req.name) = some req.user_script ∧
    fs3.isDir (projectDir home req.name) = true := by
  have hswan2 := writeFileOp_read hw1 (swanProjectFilePath home req.name)
  have hswan3 := writeFileOp_read hw2 (swanProjectFilePath home req.name)
  have huser3 := writeFileOp_read hw2 (userScriptFilePath home req.name)
  rw [if_pos rfl] at hswan2
  rw [if_neg (swanfile_ne_userfile home req.name)] at hswan3
  rw [if_pos rfl] at huser3
  refine ⟨by rw [hswan3, hswan2], huser3, ?_⟩
  obtain ⟨_, _, hdirs⟩ := makedirsOp_ok hm
  have h1 : fs1.isDir (projectDir home req.name) = true :=
    (hdirs _).mpr (Or.inr (self_mem_prefixesOf _))
  rw [isDir_congr (writeFileOp_dirs hw2), isDir_congr (writeFileOp_dirs hw1)]
  exact h1

/-- Facts about the final filesystem of a successful edit-tail chain. -/
lemma edit_chain_final {fs1 fs2 fs3 fs4 fs5 : FS} {tr2 tr3 : List Event} {home : String}
    {req : EditRequest}
    (h2 : removeKernelIfExists fs1 (kernelsDir home req.name ++ ["python2"]) = .ok (fs2, tr2))
    (h3 : removeKernelIfExists fs2 (kernelsDir home req.name ++ ["python3"]) = .ok (fs3, tr3))
    (h4 : fs3.writeFileOp (swanProjectFilePath home req.name)
      (swanProjectFileContent req.stack req.release req.platform) = .ok fs4)
    (h5 : fs4.writeFileOp (userScriptFilePath home req.name) req.user_script = .ok fs5) :
    fs5.readFile (swanProjectFilePath home req.name) =
      some (swanProjectFileContent req.stack req.release req.platform) ∧
    fs5.readFile (userScriptFilePath home req.name) = some req.user_script ∧
    fs5.isDir (projectDir home req.name) = true ∧
    fs5.isDir (swanProjectFilePath home req.name) = false ∧
    fs5.isDir (userScriptFilePath home req.name) = false ∧
    fs5.pathExists (kernelsDir home req.name ++ ["python2"]) = false ∧
    fs5.pathExists (kernelsDir home req.name ++ ["python3"]) = false := by
  have hswan4 := writeFileOp_read h4 (swanProjectFilePath home req.name)
  have hswan5 := writeFileOp_read h5 (swanProjectFilePath home req.name)
  have huser5 := writeFileOp_read h5 (userScriptFilePath home req.name)
  rw [if_pos rfl] at hswan4
  rw [if_neg (swanfile_ne_userfile home req.name)] at hswan5
  rw [if_pos rfl] at huser5
  obtain ⟨hnd4, hpar4, _⟩ := writeFileOp_ok h4
  obtain ⟨hnd5, _, _⟩ := writeFileOp_ok h5
  have hd54 := writeFileOp_dirs h5
  have hd43 := writeFileOp_dirs h4
  refine ⟨by rw [hswan5, hswan4], huser5, ?_, ?_, ?_, ?_, ?_⟩
  · rw [isDir_congr hd54, isDir_congr hd43]
    rw [swanfile_dropLast] at hpar4
    exact hpar4
  · rw [isDir_congr hd54, isDir_congr hd43]
    exact hnd4
  · rw [isDir_congr hd54]
    exact hnd5
  · -- python2 is gone after its removal step and stays gone
    obtain ⟨hp2d, hp2r⟩ := removeKernelIfExists_point h2
    have hsib : underDir (kernelsDir home req.name ++ ["python3"])
        (kernelsDir home req.name ++ ["python2"]) = false :=
      siblings_not_under (by decide)
    obtain ⟨hr3, hd3⟩ := removeKernelIfExists_frame h3 _ hsib
    have hr4 := writeFileOp_read h4 (kernelsDir home req.name ++ ["python2"])
    have hr5 := writeFileOp_read h5 (kernelsDir home req.name ++ ["python2"])
    rw [if_neg (fun he => swanfile_ne_kernels home req.name ["python2"] he.symm)] at hr4
    rw [if_neg (fun he => userfile_ne_kernels home req.name ["python2"] he.symm)] at hr5
    refine pathExists_false_intro ?_ ?_
    · rw [isDir_congr hd54, isDir_congr hd43, hd3]
      exact hp2d
    · rw [hr5, hr4, hr3]
      exact hp2r
  · obtain ⟨hp3d, hp3r⟩ := removeKernelIfExists_point h3
    have hr4 := writeFileOp_read h4 (kernelsDir home req.name ++ ["python3"])
    have hr5 := writeFileOp_read h5 (kernelsDir home req.name ++ ["python3"])
    rw [if_neg (fun he => swanfile_ne_kernels home req.name ["python3"] he.symm)] at hr4
    rw [if_neg (fun he => userfile_ne_kernels home req.name ["python3"] he.symm)] at hr5
    refine pathExists_false_intro ?_ ?_
    · rw [isDir_congr hd54, isDir_congr hd43]
      exact hp3d
    · rw [hr5, hr4]
      exact hp3r

/-! ### Facts about the serialized metadata object -/

lemma sortByKey_content (s r p : String) :
    sortByKey (swan_project_content s r p) = [("platform", p), ("release", r), ("stack", s)] := by
  have h2 : strLt "platform" "stack" = true := by decide
  have h3 : strLt "release" "stack" = true := by decide
  simp only [swan_project_content, sortByKey, List.foldr, insertByKey]
  rw [if_pos h2, if_pos h3]

/-! ### Claim theorems -/

/-- Claim C1: after a completed create or edit request, the `.swanproject`
file in the project directory holds exactly the serialized JSON object
`{platform, release, stack}` (the three request fields, keys sorted), and the
serialized object has exactly those three keys bound to the request values. -/
theorem C1_swanproject_holds_request_metadata :
    (∀ (env : Environ) (req : CreateRequest) (fs : FS) (proc : ProcResult) (home : String),
       env.get? "HOME" = some home →
       isOk (CreateProjectHandler.post env req fs proc).outcome = true →
       (CreateProjectHandler.post env req fs proc).fs.readFile
           (swanProjectFilePath home req.name) =
         some (swanProjectFileContent req.stack req.release req.platform)) ∧
    (∀ (env : Environ) (req : EditRequest) (fs : FS) (proc : ProcResult) (home : String),
       env.get? "HOME" = some home →
       isOk (EditProjectHandler.post env req fs proc).outcome = true →
       (EditProjectHandler.post env req fs proc).fs.readFile
           (swanProjectFilePath home req.name) =
         some (swanProjectFileContent req.stack req.release req.platform)) ∧
    (∀ stack release platform : String,
       swanProjectFileContent stack release platform =
         dumpsObjIndent4 [("platform", platform), ("release", release), ("stack", stack)] ∧
       (sortByKey (swan_project_content stack release platform)).map Prod.fst =
         ["platform", "release", "stack"] ∧
       (sortByKey (swan_project_content stack release platform)).lookup "stack" = some stack ∧
       (sortByKey (swan_project_content stack release platform)).lookup "release" =
         some release ∧
       (sortByKey (swan_project_content stack release platform)).lookup "platform" =
         some platform) := by
  refine ⟨?_, ?_, ?_⟩
  · intro env req fs proc home hh h
    obtain ⟨home', fs1, fs2, fs3, hh', hm, hw1, hw2, hrun⟩ := createPost_ok h
    rw [hh] at hh'
    injection hh' with hh'
    subst hh'
    rw [hrun]
    exact (create_chain_final hm hw1 hw2).1
  · intro env req fs proc home hh h
    obtain ⟨home', fs1, tr1, hh', _, hrun, htail⟩ := editPost_ok h
    rw [hh] at hh'
    injection hh' with hh'
    subst hh'
    obtain ⟨fs2, tr2, fs3, tr3, fs4, fs5, h2, h3, h4, h5, hrun2⟩ := editAfterRename_ok htail
    rw [hrun, hrun2]
    exact (edit_chain_final h2 h3 h4 h5).1
  · intro stack release platform
    refine ⟨?_, ?_, ?_, ?_, ?_⟩
    · unfold swanProjectFileContent
      rw [sortByKey_content]
    · rw [sortByKey_content]
      rfl
    · rw [sortByKey_content]
      rfl
    · rw [sortByKey_content]
      rfl
    · rw [sortByKey_content]
      rfl

/-! ### Concrete data for witnesses and counterexamples -/

def envW : Environ := ⟨[("HOME", "/u")]⟩

def envS : Environ := ⟨[("HOME", "/u"), ("SECRET", "x")]⟩

def creqW : CreateRequest := ⟨"demo", "LCG", "x86_64", "101", "echo hi"⟩

def ereqW : EditRequest := ⟨"p", "p", "LCG", "x86_64", "101", "echo hi"⟩

def fsEmpty : FS := ⟨[[]], []⟩

def fsProj : FS := ⟨[[], ["u"], ["u", "SWAN_projects"], ["u", "SWAN_projects", "p"]], []⟩

def procW : ProcResult := ⟨0, "ok"⟩

def procF : ProcResult := ⟨1, "failed"⟩

/-- Witness for C1: a concrete create request leaves the serialized metadata
object in `.swanproject`. -/
theorem C1_witness :
    (CreateProjectHandler.post envW creqW fsEmpty procW).fs.readFile
        (swanProjectFilePath "/u" creqW.name) =
      some (swanProjectFileContent creqW.stack creqW.release creqW.platform) :=
  C1_swanproject_holds_request_metadata.1 envW creqW fsEmpty procW "/u"
    (by decide) (by decide)

/-- Claim C7: the `user_script` request field is written verbatim to the
hidden `.userscript` file of the project directory by both handlers,
replacing any previous content. -/
theorem C7_userscript_verbatim :
    (∀ (env : Environ) (req : CreateRequest) (fs : FS) (proc : ProcResult) (home : String),
       env.get? "HOME" = some home →
       isOk (CreateProjectHandler.post env req fs proc).outcome = true →
       (CreateProjectHandler.post env req fs proc).fs.readFile
           (userScriptFilePath home req.name) = some req.user_script) ∧
    (∀ (env : Environ) (req : EditRequest) (fs : FS) (proc : ProcResult) (home : String),
       env.get? "HOME" = some home →
       isOk (EditProjectHandler.post env req fs proc).outcome = true →
       (EditProjectHandler.post env req fs proc).fs.readFile
           (userScriptFilePath home req.name) = some req.user_script) := by
  constructor
  · intro env req fs proc home hh h
    obtain ⟨home', fs1, fs2, fs3, hh', hm, hw1, hw2, hrun⟩ := createPost_ok h
    rw [hh] at hh'
    injection hh' with hh'
    subst hh'
    rw [hrun]
    exact (create_chain_final hm hw1 hw2).2.1
  · intro env req fs proc home hh h
    obtain ⟨home', fs1, tr1, hh', _, hrun, htail⟩ := editPost_ok h
    rw [hh] at hh'
    injection hh' with hh'
    subst hh'
    obtain ⟨fs2, tr2, fs3, tr3, fs4, fs5, h2, h3, h4, h5, hrun2⟩ := editAfterRename_ok htail
    rw [hrun, hrun2]
    exact (edit_chain_final h2 h3 h4 h5).2.1

/-- Witness for C7: the concrete create request stores the user script
verbatim. -/
theorem C7_witness :
    (CreateProjectHandler.post envW creqW fsEmpty procW).fs.readFile
        (userScriptFilePath "/u" creqW.name) = some creqW.user_script :=
  C7_userscript_verbatim.1 envW creqW fsEmpty procW "/u" (by decide) (by decide)

/-- Claim C5: after a successfully completed create or edit request, the
project directory and its `.swanproject` metadata file exist together. -/
theorem C5_dir_and_metadata_exist_together :
    (∀ (env : Environ) (req : CreateRequest) (fs : FS) (proc : ProcResult) (home : String),
       env.get? "HOME" = some home →
       isOk (CreateProjectHandler.post env req fs proc).outcome = true →
       (CreateProjectHandler.post env req fs proc).fs.isDir (projectDir home req.name) = true ∧
       (CreateProjectHandler.post env req fs proc).fs.isFile
           (swanProjectFilePath home req.name) = true) ∧
    (∀ (env : Environ) (req : EditRequest) (fs : FS) (proc : ProcResult) (home : String),
       env.get? "HOME" = some home →
       isOk (EditProjectHandler.post env req fs proc).outcome = true →
       (EditProjectHandler.post env req fs proc).fs.isDir (projectDir home req.name) = true ∧
       (EditProjectHandler.post env req fs proc).fs.isFile
           (swanProjectFilePath home req.name) = true) := by
  constructor
  · intro env req fs proc home hh h
    obtain ⟨home', fs1, fs2, fs3, hh', hm, hw1, hw2, hrun⟩ := createPost_ok h
    rw [hh] at hh'
    injection hh' with hh'
    subst hh'
    obtain ⟨hread, _, hdir⟩ := create_chain_final hm hw1 hw2
    rw [hrun]
    refine ⟨hdir, ?_⟩
    unfold FS.isFile
    rw [hread]
    rfl
  · intro env req fs proc home hh h
    obtain ⟨home', fs1, tr1, hh', _, hrun, htail⟩ := editPost_ok h
    rw [hh] at hh'
    injection hh' with hh'
    subst hh'
    obtain ⟨fs2, tr2, fs3, tr3, fs4, fs5, h2, h3, h4, h5, hrun2⟩ := editAfterRename_ok htail
    obtain ⟨hread, _, hdir, _⟩ := edit_chain_final h2 h3 h4 h5
    rw [hrun, hrun2]
    refine ⟨hdir, ?_⟩
    unfold FS.isFile
    rw [hread]
    rfl

/-- Witness for C5 at a concrete create request. -/
theorem C5_witness :
    (CreateProjectHandler.post envW creqW fsEmpty procW).fs.isDir
        (projectDir "/u" creqW.name) = true ∧
    (CreateProjectHandler.post envW creqW fsEmpty procW).fs.isFile
        (swanProjectFilePath "/u" creqW.name) = true :=
  C5_dir_and_metadata_exist_together.1 envW creqW fsEmpty procW "/u" (by decide) (by decide)

/-- Claim C8: a create request whose target directory already exists raises
`FileExistsError` with the filesystem untouched, no mutation events and no
subprocess spawned. -/
theorem C8_create_existing_dir_untouched :
    ∀ (env : Environ) (req : CreateRequest) (fs : FS) (proc : ProcResult) (home : String),
      env.get? "HOME" = some home →
      fs.pathExists (projectDir home req.name) = true →
      CreateProjectHandler.post env req fs proc =
        ⟨fs, [], [], .error "FileExistsError"⟩ :=
  fun _ _ _ _ _ hh hex => createPost_exists hh hex

/-- Witness for C8: creating over the existing project `p` fails and leaves
the state untouched. -/
theorem C8_witness :
    CreateProjectHandler.post envW ⟨"p", "LCG", "x86_64", "101", "s"⟩ fsProj procW =
      ⟨fsProj, [], [], .error "FileExistsError"⟩ :=
  C8_create_existing_dir_untouched envW ⟨"p", "LCG", "x86_64", "101", "s"⟩ fsProj procW "/u"
    (by decide) (by decide)

/-- Claim C4: when the spawned `swan_kmspecs` process exits non-zero, the
handlers do nothing beyond logging its output: the final filesystem and the
performed mutations are identical to a run where the subprocess succeeded,
and the response is still the success JSON body. -/
theorem C4_subprocess_failure_no_recovery :
    (∀ (env : Environ) (req : CreateRequest) (fs : FS) (proc : ProcResult),
       proc.exitCode ≠ 0 →
       isOk (CreateProjectHandler.post env req fs proc).outcome = true →
       (CreateProjectHandler.post env req fs proc).outcome = .ok (createResponse req.name) ∧
       (CreateProjectHandler.post env req fs proc).fs =
         (CreateProjectHandler.post env req fs ⟨0, proc.stdout⟩).fs ∧
       (CreateProjectHandler.post env req fs proc).trace =
         (CreateProjectHandler.post env req fs ⟨0, proc.stdout⟩).trace ∧
       (CreateProjectHandler.post env req fs proc).log =
         ["swan_kmspecs output: " ++ proc.stdout]) ∧
    (∀ (env : Environ) (req : EditRequest) (fs : FS) (proc : ProcResult),
       proc.exitCode ≠ 0 →
       isOk (EditProjectHandler.post env req fs proc).outcome = true →
       (EditProjectHandler.post env req fs proc).outcome = .ok (editResponse req.name) ∧
       (EditProjectHandler.post env req fs proc).fs =
         (EditProjectHandler.post env req fs ⟨0, proc.stdout⟩).fs ∧
       (EditProjectHandler.post env req fs proc).trace =
         (EditProjectHandler.post env req fs ⟨0, proc.stdout⟩).trace ∧
       (EditProjectHandler.post env req fs proc).log = ["result " ++ proc.stdout]) := by
  constructor
  · intro env req fs proc _ h
    obtain ⟨home, fs1, fs2, fs3, hh, hm, hw1, hw2, hrun⟩ := createPost_ok h
    have hrun0 : CreateProjectHandler.post env req fs ⟨0, proc.stdout⟩ =
        ⟨fs3,
         [.makedirsEv (projectDir home req.name),
          .writeFileEv (swanProjectFilePath home req.name),
          .writeFileEv (userScriptFilePath home req.name),
          .subprocessEv (createCommand env home req.name) (createChildEnv env home)],
         ["swan_kmspecs output: " ++ proc.stdout],
         .ok (createResponse req.name)⟩ := by
      simp only [CreateProjectHandler.post, hh, hm, hw1, hw2]
    rw [hrun, hrun0]
    exact ⟨rfl, rfl, rfl, rfl⟩
  · intro env req fs proc _ h
    obtain ⟨home, fs1, tr1, hh, hbranch, hrun, htail⟩ := editPost_ok h
    obtain ⟨fs2, tr2, fs3, tr3, fs4, fs5, h2, h3, h4, h5, hrun2⟩ := editAfterRename_ok htail
    have hrun20 : editAfterRename env req home fs1 tr1 ⟨0, proc.stdout⟩ =
        ⟨fs5,
         tr1 ++ tr2 ++ tr3 ++
           [.writeFileEv (swanProjectFilePath home req.name),
            .writeFileEv (userScriptFilePath home req.name),
            .subprocessEv (editCommand req.name) env.vars],
         ["result " ++ proc.stdout],
         .ok (editResponse req.name)⟩ := by
      simp only [editAfterRename, h2, h3, h4, h5]
    have hrun0 : EditProjectHandler.post env req fs ⟨0, proc.stdout⟩ =
        editAfterRename env req home fs1 tr1 ⟨0, proc.stdout⟩ := by
      rcases hbranch with ⟨hn, hfs1, htr1⟩ | ⟨hn, hr, htr1⟩
      · subst hfs1
        subst htr1
        simp only [EditProjectHandler.post, hh, if_neg (not_not_intro hn)]
      · subst htr1
        simp only [EditProjectHandler.post, hh, if_pos hn, hr]
    rw [hrun, hrun2, hrun0, hrun20]
    exact ⟨rfl, rfl, rfl, rfl⟩

/-- Witness for C4: a concrete create request with a failing subprocess still
succeeds with the success JSON and the same filesystem as a clean run. -/
theorem C4_witness :
    (CreateProjectHandler.post envW creqW fsEmpty procF).outcome =
      .ok (createResponse creqW.name) ∧
    (CreateProjectHandler.post envW creqW fsEmpty procF).fs =
      (CreateProjectHandler.post envW creqW fsEmpty ⟨0, procF.stdout⟩).fs ∧
    (CreateProjectHandler.post envW creqW fsEmpty procF).trace =
      (CreateProjectHandler.post envW creqW fsEmpty ⟨0, procF.stdout⟩).trace ∧
    (CreateProjectHandler.post envW creqW fsEmpty procF).log =
      ["swan_kmspecs output: " ++ procF.stdout] :=
  C4_subprocess_failure_no_recovery.1 envW creqW fsEmpty procF (by decide) (by decide)

/-! ### Environment of the spawned subprocesses -/

lemma subprocessEnvs_append (a b : List Event) :
    subprocessEnvs (a ++ b) = subprocessEnvs a ++ subprocessEnvs b :=
  List.filterMap_append a b _

lemma removeKernel_subprocessEnvs {fs : FS} {p : Path} {fs' : FS} {tr : List Event}
    (h : removeKernelIfExists fs p = .ok (fs', tr)) : subprocessEnvs tr = [] := by
  rcases removeKernelIfExists_ok h with ⟨_, _, htr⟩ | ⟨_, _, htr⟩ <;> subst htr <;> rfl

lemma envEntry_mem {env : Environ} {k : String} {kv : String × String}
    (h : kv ∈ envEntry env k) : kv.1 = k ∧ env.get? k = some kv.2 := by
  unfold envEntry at h
  cases hk : env.get? k <;> rw [hk] at h <;> simp at h
  subst h
  exact ⟨rfl, rfl⟩

lemma createChildEnv_mem {env : Environ} {home : String} {kv : String × String}
    (hh : env.get? "HOME" = some home) (h : kv ∈ createChildEnv env home) :
    (kv.1 = "HOME" ∨ kv.1 = "OAUTH2_FILE" ∨ kv.1 = "OAUTH2_TOKEN" ∨
      kv.1 = "OAUTH_INSPECTION_ENDPOINT") ∧ env.get? kv.1 = some kv.2 := by
  unfold createChildEnv at h
  rcases List.mem_cons.mp h with he | h
  · subst he
    exact ⟨Or.inl rfl, hh⟩
  · unfold oauthAssignments at h
    rcases List.mem_append.mp h with h | h
    · rcases List.mem_append.mp h with h | h
      · obtain ⟨h1, h2⟩ := envEntry_mem h
        rw [h1]
        exact ⟨Or.inr (Or.inl rfl), h2⟩
      · obtain ⟨h1, h2⟩ := envEntry_mem h
        rw [h1]
        exact ⟨Or.inr (Or.inr (Or.inl rfl)), h2⟩
    · obtain ⟨h1, h2⟩ := envEntry_mem h
      rw [h1]
      exact ⟨Or.inr (Or.inr (Or.inr rfl)), h2⟩

/-- Every subprocess spawned by the create handler receives exactly the
filtered `env -i` environment. -/
lemma createPost_subprocessEnvs {env : Environ} {req : CreateRequest} {fs : FS}
    {proc : ProcResult} {home : String} (hh : env.get? "HOME" = some home) :
    ∀ ce ∈ subprocessEnvs (CreateProjectHandler.post env req fs proc).trace,
      ce = createChildEnv env home := by
  intro ce hce
  cases hm : fs.makedirsOp (projectDir home req.name) with
  | error e =>
    have hrun : CreateProjectHandler.post env req fs proc = ⟨fs, [], [], .error e⟩ := by
      simp only [CreateProjectHandler.post, hh, hm]
    rw [hrun] at hce
    simp [subprocessEnvs] at hce
  | ok fs1 =>
    cases hw1 : fs1.writeFileOp (swanProjectFilePath home req.name)
        (swanProjectFileContent req.stack req.release req.platform) with
    | error e =>
      have hrun : CreateProjectHandler.post env req fs proc =
          ⟨fs1, [.makedirsEv (projectDir home req.name)], [], .error e⟩ := by
        simp only [CreateProjectHandler.post, hh, hm, hw1]
      rw [hrun] at hce
      simp [subprocessEnvs] at hce
    | ok fs2 =>
      cases hw2 : fs2.writeFileOp (userScriptFilePath home req.name) req.user_script with
      | error e =>
        have hrun : CreateProjectHandler.post env req fs proc =
            ⟨fs2,
             [.makedirsEv (projectDir home req.name),
              .writeFileEv (swanProjectFilePath home req.name)], [], .error e⟩ := by
          simp only [CreateProjectHandler.post, hh, hm, hw1, hw2]
        rw [hrun] at hce
        simp [subprocessEnvs] at hce
      | ok fs3 =>
        have hrun : CreateProjectHandler.post env req fs proc =
            ⟨fs3,
             [.makedirsEv (projectDir home req.name),
              .writeFileEv (swanProjectFilePath home req.name),
              .writeFileEv (userScriptFilePath home req.name),
              .subprocessEv (createCommand env home req.name) (createChildEnv env home)],
             ["swan_kmspecs output: " ++ proc.stdout],
             .ok (createResponse req.name)⟩ := by
          simp only [CreateProjectHandler.post, hh, hm, hw1, hw2]
        rw [hrun] at hce
        simp [subprocessEnvs] at hce
        exact hce

/-- Every subprocess spawned by the tail of the edit handler inherits the
whole server environment. -/
lemma editAfterRename_subprocessEnvs {env : Environ} {req : EditRequest} {home : String}
    {fs1 : FS} {tr1 : List Event} {proc : ProcResult}
    (htr1 : subprocessEnvs tr1 = []) :
    ∀ ce ∈ subprocessEnvs (editAfterRename env req home fs1 tr1 proc).trace,
      ce = env.vars := by
  intro ce hce
  cases h2 : removeKernelIfExists fs1 (kernelsDir home req.name ++ ["python2"]) with
  | error e =>
    have hrun : editAfterRename env req home fs1 tr1 proc = ⟨fs1, tr1, [], .error e⟩ := by
      simp only [editAfterRename, h2]
    rw [hrun] at hce
    have hce' : ce ∈ subprocessEnvs tr1 := hce
    rw [htr1] at hce'
    cases hce'
  | ok pr2 =>
    obtain ⟨fs2, tr2⟩ := pr2
    have htr2 := removeKernel_subprocessEnvs h2
    cases h3 : removeKernelIfExists fs2 (kernelsDir home req.name ++ ["python3"]) with
    | error e =>
      have hrun : editAfterRename env req home fs1 tr1 proc =
          ⟨fs2, tr1 ++ tr2, [], .error e⟩ := by
        simp only [editAfterRename, h2, h3]
      rw [hrun] at hce
      have hce' : ce ∈ subprocessEnvs (tr1 ++ tr2) := hce
      rw [subprocessEnvs_append, htr1, htr2] at hce'
      cases hce'
    | ok pr3 =>
      obtain ⟨fs3, tr3⟩ := pr3
      have htr3 := removeKernel_subprocessEnvs h3
      cases h4 : fs3.writeFileOp (swanProjectFilePath home req.name)
          (swanProjectFileContent req.stack req.release req.platform) with
      | error e =>
        have hrun : editAfterRename env req home fs1 tr1 proc =
            ⟨fs3, tr1 ++ tr2 ++ tr3, [], .error e⟩ := by
          simp only [editAfterRename, h2, h3, h4]
        rw [hrun] at hce
        have hce' : ce ∈ subprocessEnvs (tr1 ++ tr2 ++ tr3) := hce
        rw [subprocessEnvs_append, subprocessEnvs_append, htr1, htr2, htr3] at hce'
        cases hce'
      | ok fs4 =>
        cases h5 : fs4.writeFileOp (userScriptFilePath home req.name) req.user_script with
        | error e =>
          have hrun : editAfterRename env req home fs1 tr1 proc =
              ⟨fs4, tr1 ++ tr2 ++ tr3 ++ [.writeFileEv (swanProjectFilePath home req.name)],
               [], .error e⟩ := by
            simp only [editAfterRename, h2, h3, h4, h5]
          rw [hrun] at hce
          have hce' : ce ∈ subprocessEnvs
              (tr1 ++ tr2 ++ tr3 ++ [Event.writeFileEv (swanProjectFilePath home req.name)]) :=
            hce
          rw [subprocessEnvs_append, subprocessEnvs_append, subprocessEnvs_append,
            htr1, htr2, htr3] at hce'
          cases hce'
        | ok fs5 =>
          have hrun : editAfterRename env req home fs1 tr1 proc =
              ⟨fs5,
               tr1 ++ tr2 ++ tr3 ++
                 [.writeFileEv (swanProjectFilePath home req.name),
                  .writeFileEv (userScriptFilePath home req.name),
                  .subprocessEv (editCommand req.name) env.vars],
               ["result " ++ proc.stdout],
               .ok (editResponse req.name)⟩ := by
            simp only [editAfterRename, h2, h3, h4, h5]
          rw [hrun] at hce
          have hce' : ce ∈ subprocessEnvs
              (tr1 ++ tr2 ++ tr3 ++
                [Event.writeFileEv (swanProjectFilePath home req.name),
                 Event.writeFileEv (userScriptFilePath home req.name),
                 Event.subprocessEv (editCommand req.name) env.vars]) := hce
          rw [subprocessEnvs_append, subprocessEnvs_append, subprocessEnvs_append,
            htr1, htr2, htr3] at hce'
          simp [subprocessEnvs] at hce'
          exact hce'

lemma editPost_subprocessEnvs {env : Environ} {req : EditRequest} {fs : FS}
    {proc : ProcResult} :
    ∀ ce ∈ subprocessEnvs (EditProjectHandler.post env req fs proc).trace,
      ce = env.vars := by
  intro ce hce
  cases hh : env.get? "HOME" with
  | none =>
    have hrun : EditProjectHandler.post env req fs proc =
        ⟨fs, [], [], .error "KeyError: HOME"⟩ := by
      simp only [EditProjectHandler.post, hh]
    rw [hrun] at hce
    simp [subprocessEnvs] at hce
  | some home =>
    by_cases hn : req.old_name = req.name
    · have hrun : EditProjectHandler.post env req fs proc =
          editAfterRename env req home fs [] proc := by
        simp only [EditProjectHandler.post, hh, if_neg (not_not_intro hn)]
      rw [hrun] at hce
      refine editAfterRename_subprocessEnvs ?_ ce hce
      rfl
    · cases hr : fs.renameOp (projectDir home req.old_name) (projectDir home req.name) with
      | error e =>
        have hrun : EditProjectHandler.post env req fs proc = ⟨fs, [], [], .error e⟩ := by
          simp only [EditProjectHandler.post, hh, if_pos hn, hr]
        rw [hrun] at hce
        simp [subprocessEnvs] at hce
      | ok fs1 =>
        have hrun : EditProjectHandler.post env req fs proc =
            editAfterRename env req home fs1
              [Event.renameEv (projectDir home req.old_name) (projectDir home req.name)]
              proc := by
          simp only [EditProjectHandler.post, hh, if_pos hn, hr]
        rw [hrun] at hce
        refine editAfterRename_subprocessEnvs ?_ ce hce
        rfl

/-- Claim C2 counterexample: the edit handler spawns `swan_kmspecs` without
`env -i` (plain `subprocess.Popen`), so the child inherits the whole server
environment — here including the unrelated variable `SECRET`. -/
theorem C2_counterexample :
    subprocessEnvs (EditProjectHandler.post envS ereqW fsProj procW).trace =
      [[("HOME", "/u"), ("SECRET", "x")]] ∧
    ¬ (∀ ce ∈ subprocessEnvs (EditProjectHandler.post envS ereqW fsProj procW).trace,
        ∀ kv ∈ ce, kv.1 = "HOME" ∨ kv.1 = "OAUTH2_FILE" ∨ kv.1 = "OAUTH2_TOKEN" ∨
          kv.1 = "OAUTH_INSPECTION_ENDPOINT") := by
  constructor
  · decide
  · decide

/-- Claim C2 (amended): the create handler spawns its subprocess through
`env -i` with exactly HOME plus those OAuth variables that are set in the
server environment; the edit handler spawns its subprocess without `env -i`
and the child inherits the entire server environment. -/
theorem C2_subprocess_child_env :
    (∀ (env : Environ) (req : CreateRequest) (fs : FS) (proc : ProcResult) (home : String),
       env.get? "HOME" = some home →
       ∀ ce ∈ subprocessEnvs (CreateProjectHandler.post env req fs proc).trace,
         ce = createChildEnv env home ∧
         (∀ kv ∈ ce, (kv.1 = "HOME" ∨ kv.1 = "OAUTH2_FILE" ∨ kv.1 = "OAUTH2_TOKEN" ∨
             kv.1 = "OAUTH_INSPECTION_ENDPOINT") ∧ env.get? kv.1 = some kv.2)) ∧
    (∀ (env : Environ) (req : EditRequest) (fs : FS) (proc : ProcResult),
       ∀ ce ∈ subprocessEnvs (EditProjectHandler.post env req fs proc).trace,
         ce = env.vars) := by
  constructor
  · intro env req fs proc home hh ce hce
    have hc := createPost_subprocessEnvs hh ce hce
    subst hc
    exact ⟨rfl, fun kv hkv => createChildEnv_mem hh hkv⟩
  · intro env req fs proc ce hce
    exact editPost_subprocessEnvs ce hce

/-- Witness for the amended C2 at a concrete create request whose subprocess
actually runs, instantiated at its HOME entry. -/
theorem C2_witness :
    createChildEnv envW "/u" = createChildEnv envW "/u" ∧
    ((("HOME", "/u") : String × String).1 = "HOME" ∨
      (("HOME", "/u") : String × String).1 = "OAUTH2_FILE" ∨
      (("HOME", "/u") : String × String).1 = "OAUTH2_TOKEN" ∨
      (("HOME", "/u") : String × String).1 = "OAUTH_INSPECTION_ENDPOINT") ∧
    envW.get? (("HOME", "/u") : String × String).1 =
      some (("HOME", "/u") : String × String).2 := by
  have h := C2_subprocess_child_env.1 envW creqW fsEmpty procW "/u" (by decide)
    (createChildEnv envW "/u") (by decide)
  exact ⟨h.1, h.2 ("HOME", "/u") (by decide)⟩

/-- The property asserted by claim C3 of one request: a single filesystem
mutation or a single subprocess call, never several mutations plus a
subprocess call. -/
def singleOperationPerRequest (t : List Event) : Prop :=
  (mutationCount t = 1 ∧ subprocessCount t = 0) ∨
  (mutationCount t = 0 ∧ subprocessCount t = 1)

/-- Claim C3 counterexample: a successful create request performs three
filesystem mutations (mkdir and two writes) plus one subprocess call. -/
theorem C3_counterexample :
    mutationCount (CreateProjectHandler.post envW creqW fsEmpty procW).trace = 3 ∧
    subprocessCount (CreateProjectHandler.post envW creqW fsEmpty procW).trace = 1 ∧
    ¬ singleOperationPerRequest (CreateProjectHandler.post envW creqW fsEmpty procW).trace := by
  refine ⟨by decide, by decide, ?_⟩
  intro hc
  rcases hc with ⟨h1, _⟩ | ⟨h1, _⟩
  · exact absurd ((by decide : mutationCount
      (CreateProjectHandler.post envW creqW fsEmpty procW).trace = 3) ▸ h1) (by decide)
  · exact absurd ((by decide : mutationCount
      (CreateProjectHandler.post envW creqW fsEmpty procW).trace = 3) ▸ h1) (by decide)

lemma mutationCount_append (a b : List Event) :
    mutationCount (a ++ b) = mutationCount a + mutationCount b := by
  unfold mutationCount
  rw [List.filter_append, List.length_append]

lemma subprocessCount_append (a b : List Event) :
    subprocessCount (a ++ b) = subprocessCount a + subprocessCount b := by
  unfold subprocessCount
  rw [List.filter_append, List.length_append]

/-- Claim C3 (amended): every request performs a bounded sequence of
synchronous filesystem mutations followed by one blocking subprocess call: a
successful create performs exactly three mutations plus one subprocess call,
a successful edit between two and five mutations plus one subprocess call. -/
theorem C3_bounded_mutations_one_subprocess :
    (∀ (env : Environ) (req : CreateRequest) (fs : FS) (proc : ProcResult),
       isOk (CreateProjectHandler.post env req fs proc).outcome = true →
       mutationCount (CreateProjectHandler.post env req fs proc).trace = 3 ∧
       subprocessCount (CreateProjectHandler.post env req fs proc).trace = 1) ∧
    (∀ (env : Environ) (req : EditRequest) (fs : FS) (proc : ProcResult),
       isOk (EditProjectHandler.post env req fs proc).outcome = true →
       2 ≤ mutationCount (EditProjectHandler.post env req fs proc).trace ∧
       mutationCount (EditProjectHandler.post env req fs proc).trace ≤ 5 ∧
       subprocessCount (EditProjectHandler.post env req fs proc).trace = 1) := by
  constructor
  · intro env req fs proc h
    obtain ⟨home, fs1, fs2, fs3, hh, hm, hw1, hw2, hrun⟩ := createPost_ok h
    rw [hrun]
    refine ⟨?_, ?_⟩ <;> simp [mutationCount, subprocessCount, Event.isMutation]
  · intro env req fs proc h
    obtain ⟨home, fs1, tr1, hh, hbranch, hrun, htail⟩ := editPost_ok h
    obtain ⟨fs2, tr2, fs3, tr3, fs4, fs5, h2, h3, h4, h5, hrun2⟩ := editAfterRename_ok htail
    rw [hrun, hrun2]
    rcases hbranch with ⟨_, _, htr1⟩ | ⟨_, _, htr1⟩ <;> subst htr1 <;>
      rcases removeKernelIfExists_ok h2 with ⟨_, _, htr2⟩ | ⟨_, _, htr2⟩ <;> subst htr2 <;>
      rcases removeKernelIfExists_ok h3 with ⟨_, _, htr3⟩ | ⟨_, _, htr3⟩ <;> subst htr3 <;>
      refine ⟨?_, ?_, ?_⟩ <;>
      simp [mutationCount, subprocessCount, Event.isMutation]

/-- Witness for the amended C3 at a concrete successful edit request. -/
theorem C3_witness :
    2 ≤ mutationCount (EditProjectHandler.post envW ereqW fsProj procW).trace ∧
    mutationCount (EditProjectHandler.post envW ereqW fsProj procW).trace ≤ 5 ∧
    subprocessCount (EditProjectHandler.post envW ereqW fsProj procW).trace = 1 :=
  C3_bounded_mutations_one_subprocess.2 envW ereqW fsProj procW (by decide)

/-! ### Frame lemmas for the edit tail -/

lemma hasRenameEv_append (a b : List Event) :
    hasRenameEv (a ++ b) = (hasRenameEv a || hasRenameEv b) := by
  unfold hasRenameEv
  rw [List.any_append]

lemma removeKernel_no_rename {fs : FS} {p : Path} {fs' : FS} {tr : List Event}
    (h : removeKernelIfExists fs p = .ok (fs', tr)) : hasRenameEv tr = false := by
  rcases removeKernelIfExists_ok h with ⟨_, _, htr⟩ | ⟨_, _, htr⟩ <;> subst htr <;> rfl

/-- The tail of the edit handler, in every one of its branches, leaves every
path other than the metadata file, the user-script file and the
`python2`/`python3` kernel subtrees untouched. -/
lemma editAfterRename_frame {env : Environ} {req : EditRequest} {home : String} {fs1 : FS}
    {tr1 : List Event} {proc : ProcResult} (q : Path)
    (hq1 : q ≠ swanProjectFilePath home req.name)
    (hq2 : q ≠ userScriptFilePath home req.name)
    (hq3 : underDir (kernelsDir home req.name ++ ["python2"]) q = false)
    (hq4 : underDir (kernelsDir home req.name ++ ["python3"]) q = false) :
    (editAfterRename env req home fs1 tr1 proc).fs.readFile q = fs1.readFile q ∧
    (editAfterRename env req home fs1 tr1 proc).fs.isDir q = fs1.isDir q := by
  cases h2 : removeKernelIfExists fs1 (kernelsDir home req.name ++ ["python2"]) with
  | error e =>
    have hrun : editAfterRename env req home fs1 tr1 proc = ⟨fs1, tr1, [], .error e⟩ := by
      simp only [editAfterRename, h2]
    rw [hrun]
    exact ⟨rfl, rfl⟩
  | ok pr2 =>
    obtain ⟨fs2, tr2⟩ := pr2
    obtain ⟨hf2r, hf2d⟩ := removeKernelIfExists_frame h2 q hq3
    cases h3 : removeKernelIfExists fs2 (kernelsDir home req.name ++ ["python3"]) with
    | error e =>
      have hrun : editAfterRename env req home fs1 tr1 proc =
          ⟨fs2, tr1 ++ tr2, [], .error e⟩ := by
        simp only [editAfterRename, h2, h3]
      rw [hrun]
      exact ⟨hf2r, hf2d⟩
    | ok pr3 =>
      obtain ⟨fs3, tr3⟩ := pr3
      obtain ⟨hf3r, hf3d⟩ := removeKernelIfExists_frame h3 q hq4
      cases h4 : fs3.writeFileOp (swanProjectFilePath home req.name)
          (swanProjectFileContent req.stack req.release req.platform) with
      | error e =>
        have hrun : editAfterRename env req home fs1 tr1 proc =
            ⟨fs3, tr1 ++ tr2 ++ tr3, [], .error e⟩ := by
          simp only [editAfterRename, h2, h3, h4]
        rw [hrun]
        exact ⟨hf3r.trans hf2r, hf3d.trans hf2d⟩
      | ok fs4 =>
        have hw4r := writeFileOp_read h4 q
        rw [if_neg hq1] at hw4r
        have hw4d := isDir_congr (writeFileOp_dirs h4) q
        cases h5 : fs4.writeFileOp (userScriptFilePath home req.name) req.user_script with
        | error e =>
          have hrun : editAfterRename env req home fs1 tr1 proc =
              ⟨fs4, tr1 ++ tr2 ++ tr3 ++ [.writeFileEv (swanProjectFilePath home req.name)],
               [], .error e⟩ := by
            simp only [editAfterRename, h2, h3, h4, h5]
          rw [hrun]
          exact ⟨(hw4r.trans hf3r).trans hf2r, (hw4d.trans hf3d).trans hf2d⟩
        | ok fs5 =>
          have hw5r := writeFileOp_read h5 q
          rw [if_neg hq2] at hw5r
          have hw5d := isDir_congr (writeFileOp_dirs h5) q
          have hrun : editAfterRename env req home fs1 tr1 proc =
              ⟨fs5,
               tr1 ++ tr2 ++ tr3 ++
                 [.writeFileEv (swanProjectFilePath home req.name),
                  .writeFileEv (userScriptFilePath home req.name),
                  .subprocessEv (editCommand req.name) env.vars],
               ["result " ++ proc.stdout],
               .ok (editResponse req.name)⟩ := by
            simp only [editAfterRename, h2, h3, h4, h5]
          rw [hrun]
          exact ⟨((hw5r.trans hw4r).trans hf3r).trans hf2r,
                 ((hw5d.trans hw4d).trans hf3d).trans hf2d⟩

/-- No branch of the edit tail records a rename event beyond those already in
`tr1`. -/
lemma editAfterRename_no_rename {env : Environ} {req : EditRequest} {home : String}
    {fs1 : FS} {tr1 : List Event} {proc : ProcResult}
    (htr1 : hasRenameEv tr1 = false) :
    hasRenameEv (editAfterRename env req home fs1 tr1 proc).trace = false := by
  cases h2 : removeKernelIfExists fs1 (kernelsDir home req.name ++ ["python2"]) with
  | error e =>
    have hrun : editAfterRename env req home fs1 tr1 proc = ⟨fs1, tr1, [], .error e⟩ := by
      simp only [editAfterRename, h2]
    rw [hrun]
    exact htr1
  | ok pr2 =>
    obtain ⟨fs2, tr2⟩ := pr2
    have htr2 := removeKernel_no_rename h2
    cases h3 : removeKernelIfExists fs2 (kernelsDir home req.name ++ ["python3"]) with
    | error e =>
      have hrun : editAfterRename env req home fs1 tr1 proc =
          ⟨fs2, tr1 ++ tr2, [], .error e⟩ := by
        simp only [editAfterRename, h2, h3]
      rw [hrun]
      show hasRenameEv (tr1 ++ tr2) = false
      rw [hasRenameEv_append, htr1, htr2]
      rfl
    | ok pr3 =>
      obtain ⟨fs3, tr3⟩ := pr3
      have htr3 := removeKernel_no_rename h3
      cases h4 : fs3.writeFileOp (swanProjectFilePath home req.name)
          (swanProjectFileContent req.stack req.release req.platform) with
      | error e =>
        have hrun : editAfterRename env req home fs1 tr1 proc =
            ⟨fs3, tr1 ++ tr2 ++ tr3, [], .error e⟩ := by
          simp only [editAfterRename, h2, h3, h4]
        rw [hrun]
        show hasRenameEv (tr1 ++ tr2 ++ tr3) = false
        rw [hasRenameEv_append, hasRenameEv_append, htr1, htr2, htr3]
        rfl
      | ok fs4 =>
        cases h5 : fs4.writeFileOp (userScriptFilePath home req.name) req.user_script with
        | error e =>
          have hrun : editAfterRename env req home fs1 tr1 proc =
              ⟨fs4, tr1 ++ tr2 ++ tr3 ++ [.writeFileEv (swanProjectFilePath home req.name)],
               [], .error e⟩ := by
            simp only [editAfterRename, h2, h3, h4, h5]
          rw [hrun]
          show hasRenameEv (tr1 ++ tr2 ++ tr3 ++
            [Event.writeFileEv (swanProjectFilePath home req.name)]) = false
          rw [hasRenameEv_append, hasRenameEv_append, hasRenameEv_append, htr1, htr2, htr3]
          rfl
        | ok fs5 =>
          have hrun : editAfterRename env req home fs1 tr1 proc =
              ⟨fs5,
               tr1 ++ tr2 ++ tr3 ++
                 [.writeFileEv (swanProjectFilePath home req.name),
                  .writeFileEv (userScriptFilePath home req.name),
                  .subprocessEv (editCommand req.name) env.vars],
               ["result " ++ proc.stdout],
               .ok (editResponse req.name)⟩ := by
            simp only [editAfterRename, h2, h3, h4, h5]
          rw [hrun]
          show hasRenameEv (tr1 ++ tr2 ++ tr3 ++
            [Event.writeFileEv (swanProjectFilePath home req.name),
             Event.writeFileEv (userScriptFilePath home req.name),
             Event.subprocessEv (editCommand req.name) env.vars]) = false
          rw [hasRenameEv_append, hasRenameEv_append, hasRenameEv_append, htr1, htr2, htr3]
          rfl

/-- Claim C9: an edit request with `old_name = name` performs no directory
rename, and it leaves every path other than the metadata file, the
user-script file and the `python2`/`python3` kernel subtrees of the project
exactly as it was. -/
theorem C9_same_name_no_rename_frame :
    ∀ (env : Environ) (req : EditRequest) (fs : FS) (proc : ProcResult) (home : String),
      env.get? "HOME" = some home → req.old_name = req.name →
      hasRenameEv (EditProjectHandler.post env req fs proc).trace = false ∧
      (∀ q : Path,
        q ≠ swanProjectFilePath home req.name →
        q ≠ userScriptFilePath home req.name →
        underDir (kernelsDir home req.name ++ ["python2"]) q = false →
        underDir (kernelsDir home req.name ++ ["python3"]) q = false →
        (EditProjectHandler.post env req fs proc).fs.readFile q = fs.readFile q ∧
        (EditProjectHandler.post env req fs proc).fs.isDir q = fs.isDir q) := by
  intro env req fs proc home hh hn
  have hrun : EditProjectHandler.post env req fs proc =
      editAfterRename env req home fs [] proc := by
    simp only [EditProjectHandler.post, hh, if_neg (not_not_intro hn)]
  rw [hrun]
  refine ⟨editAfterRename_no_rename rfl, ?_⟩
  intro q hq1 hq2 hq3 hq4
  exact editAfterRename_frame q hq1 hq2 hq3 hq4

/-- Witness for C9 at a concrete same-name edit request and an untouched
path. -/
theorem C9_witness :
    hasRenameEv (EditProjectHandler.post envW ereqW fsProj procW).trace = false ∧
    (EditProjectHandler.post envW ereqW fsProj procW).fs.readFile ["u", "other"] =
      fsProj.readFile ["u", "other"] ∧
    (EditProjectHandler.post envW ereqW fsProj procW).fs.isDir ["u", "other"] =
      fsProj.isDir ["u", "other"] := by
  have h := C9_same_name_no_rename_frame envW ereqW fsProj procW "/u" (by decide) (by decide)
  exact ⟨h.1, h.2 ["u", "other"] (by decide) (by decide) (by decide) (by decide)⟩

lemma pathExists_congr2 {fsA fsB : FS} {p p' : Path}
    (hr : fsA.readFile p = fsB.readFile p') (hd : fsA.isDir p = fsB.isDir p') :
    fsA.pathExists p = fsB.pathExists p' := by
  unfold FS.pathExists FS.isFile
  rw [hr, hd]

lemma removeKernel_preserve_gone {fs : FS} {p : Path} {fs' : FS} {tr : List Event}
    (h : removeKernelIfExists fs p = .ok (fs', tr)) (q : Path)
    (hg : fs.isDir q = false ∧ fs.readFile q = none) :
    fs'.isDir q = false ∧ fs'.readFile q = none := by
  rcases removeKernelIfExists_ok h with ⟨_, he, _⟩ | ⟨_, he, _⟩ <;> subst he
  · exact hg
  · constructor
    · rw [removeSubtree_isDir, hg.1, Bool.and_false]
    · rw [removeSubtree_read]
      by_cases hu : underDir p q = true
      · rw [if_pos hu]
      · rw [if_neg hu]
        exact hg.2

lemma write_preserve_gone {fs : FS} {p : Path} {c : String} {fs' : FS}
    (h : fs.writeFileOp p c = .ok fs') (q : Path) (hq : q ≠ p)
    (hg : fs.isDir q = false ∧ fs.readFile q = none) :
    fs'.isDir q = false ∧ fs'.readFile q = none := by
  refine ⟨?_, ?_⟩
  · rw [isDir_congr (writeFileOp_dirs h)]
    exact hg.1
  · rw [writeFileOp_read h q, if_neg hq]
    exact hg.2

/-- Claim C6: a (successful) edit request removes exactly the `python2` and
`python3` subdirectories of the project kernel-spec directory when they
exist, and leaves every other entry of the kernel-spec directory unchanged
(tracked through the optional rename of the project directory). -/
theorem C6_edit_kernel_dir_frame :
    ∀ (env : Environ) (req : EditRequest) (fs : FS) (proc : ProcResult) (home : String),
      env.get? "HOME" = some home → fs.wf →
      isOk (EditProjectHandler.post env req fs proc).outcome = true →
      (∀ s : Path, underDir ["python2"] s = false → underDir ["python3"] s = false →
        (EditProjectHandler.post env req fs proc).fs.readFile
            (kernelsDir home req.name ++ s) =
          fs.readFile (kernelsDir home req.old_name ++ s) ∧
        (EditProjectHandler.post env req fs proc).fs.isDir
            (kernelsDir home req.name ++ s) =
          fs.isDir (kernelsDir home req.old_name ++ s)) ∧
      (∀ q : Path,
        underDir (kernelsDir home req.name ++ ["python2"]) q = true ∨
        underDir (kernelsDir home req.name ++ ["python3"]) q = true →
        (EditProjectHandler.post env req fs proc).fs.isDir q = false ∧
        (EditProjectHandler.post env req fs proc).fs.readFile q = none) := by
  intro env req fs proc home hh hwf h
  obtain ⟨home', fs1, tr1, hh', hbranch, hrun, htail⟩ := editPost_ok h
  rw [hh] at hh'
  injection hh' with hh'
  subst hh'
  have hbr : ∀ t : Path,
      fs1.readFile (projectDir home req.name ++ t) =
        fs.readFile (projectDir home req.old_name ++ t) ∧
      fs1.isDir (projectDir home req.name ++ t) =
        fs.isDir (projectDir home req.old_name ++ t) := by
    intro t
    rcases hbranch with ⟨hn, hfs1, _⟩ | ⟨_, hr, _⟩
    · subst hfs1
      rw [hn]
      exact ⟨rfl, rfl⟩
    · exact renameOp_transport hwf hr t
  have hka : ∀ (x : String) (s : Path), kernelsDir home x ++ s =
      projectDir home x ++ ([".local", "share", "jupyter", "kernels"] ++ s) := by
    intro x s
    unfold kernelsDir
    rw [List.append_assoc]
  have hfs1gone : ∀ (x : String) (t : Path),
      fs1.pathExists (kernelsDir home req.name ++ [x]) = false →
      fs1.isDir (kernelsDir home req.name ++ ([x] ++ t)) = false ∧
      fs1.readFile (kernelsDir home req.name ++ ([x] ++ t)) = none := by
    intro x t hex1
    have hb := hbr ([".local", "share", "jupyter", "kernels"] ++ [x])
    rw [← hka req.name, ← hka req.old_name] at hb
    have hex0 : fs.pathExists (kernelsDir home req.old_name ++ [x]) = false := by
      rw [← pathExists_congr2 hb.1 hb.2]
      exact hex1
    have hu : underDir (kernelsDir home req.old_name ++ [x])
        (kernelsDir home req.old_name ++ ([x] ++ t)) = true := by
      rw [← List.append_assoc]
      exact underDir_append _ t
    have hnot := wf_under_not_exists hwf hex0 _ hu
    have hb2 := hbr ([".local", "share", "jupyter", "kernels"] ++ ([x] ++ t))
    rw [← hka req.name, ← hka req.old_name] at hb2
    exact ⟨by rw [hb2.2]; exact hnot.1, by rw [hb2.1]; exact hnot.2⟩
  obtain ⟨fs2, tr2, fs3, tr3, fs4, fs5, h2, h3, h4, h5, hrun2⟩ := editAfterRename_ok htail
  constructor
  · intro s hs2 hs3
    have hq1 : kernelsDir home req.name ++ s ≠ swanProjectFilePath home req.name :=
      fun he => swanfile_ne_kernels home req.name s he.symm
    have hq2 : kernelsDir home req.name ++ s ≠ userScriptFilePath home req.name :=
      fun he => userfile_ne_kernels home req.name s he.symm
    have hq3 : underDir (kernelsDir home req.name ++ ["python2"])
        (kernelsDir home req.name ++ s) = false := by
      rw [underDir_append_cancel]
      exact hs2
    have hq4 : underDir (kernelsDir home req.name ++ ["python3"])
        (kernelsDir home req.name ++ s) = false := by
      rw [underDir_append_cancel]
      exact hs3
    obtain ⟨hfr, hfd⟩ :=
      @editAfterRename_frame env req home fs1 tr1 proc
        (kernelsDir home req.name ++ s) hq1 hq2 hq3 hq4
    have hb := hbr ([".local", "share", "jupyter", "kernels"] ++ s)
    rw [← hka req.name, ← hka req.old_name] at hb
    constructor
    · rw [hrun, hfr]
      exact hb.1
    · rw [hrun, hfd]
      exact hb.2
  · intro q hq
    rw [hrun, hrun2]
    rcases hq with hq | hq
    · obtain ⟨t, hqe⟩ := underDir_iff_append.mp hq
      have hgone2 : fs2.isDir q = false ∧ fs2.readFile q = none := by
        refine removeKernelIfExists_under h2 q hq ?_
        intro hex1
        have := hfs1gone "python2" t hex1
        rw [hqe, List.append_assoc]
        exact this
      have hgone3 := removeKernel_preserve_gone h3 q hgone2
      have hqs : q ≠ swanProjectFilePath home req.name := by
        intro he
        rw [he, swanfile_not_under_kernelSub home req.name "python2"] at hq
        exact Bool.noConfusion hq
      have hqu : q ≠ userScriptFilePath home req.name := by
        intro he
        rw [he, userfile_not_under_kernelSub home req.name "python2"] at hq
        exact Bool.noConfusion hq
      have hgone4 := write_preserve_gone h4 q hqs hgone3
      exact write_preserve_gone h5 q hqu hgone4
    · obtain ⟨t, hqe⟩ := underDir_iff_append.mp hq
      have hq2' : underDir (kernelsDir home req.name ++ ["python2"]) q = false := by
        subst hqe
        rw [List.append_assoc, underDir_append_cancel]
        have hne : (("python2" : String) == "python3") = false := by decide
        show underDir ["python2"] ("python3" :: t) = false
        unfold underDir
        rw [hne]
        rfl
      have hgone3 : fs3.isDir q = false ∧ fs3.readFile q = none := by
        refine removeKernelIfExists_under h3 q hq ?_
        intro hex2
        have hsib : underDir (kernelsDir home req.name ++ ["python2"])
            (kernelsDir home req.name ++ ["python3"]) = false :=
          siblings_not_under (by decide)
        obtain ⟨hfr3, hfd3⟩ := removeKernelIfExists_frame h2 _ hsib
        have hex1 : fs1.pathExists (kernelsDir home req.name ++ ["python3"]) = false := by
          rw [← pathExists_congr2 hfr3 hfd3]
          exact hex2
        have hg1 := hfs1gone "python3" t hex1
        obtain ⟨hfrq, hfdq⟩ := removeKernelIfExists_frame h2 q hq2'
        rw [hqe, List.append_assoc] at hfrq hfdq ⊢
        exact ⟨by rw [hfdq]; exact hg1.1, by rw [hfrq]; exact hg1.2⟩
      have hqs : q ≠ swanProjectFilePath home req.name := by
        intro he
        rw [he, swanfile_not_under_kernelSub home req.name "python3"] at hq
        exact Bool.noConfusion hq
      have hqu : q ≠ userScriptFilePath home req.name := by
        intro he
        rw [he, userfile_not_under_kernelSub home req.name "python3"] at hq
        exact Bool.noConfusion hq
      have hgone4 := write_preserve_gone h4 q hqs hgone3
      exact write_preserve_gone h5 q hqu hgone4

/-- Witness for C6 at a concrete same-name edit request: an unrelated kernel
directory entry is untouched and the `python2` subtree is absent
afterwards. -/
theorem C6_witness :
    ((EditProjectHandler.post envW ereqW fsProj procW).fs.readFile
        (kernelsDir "/u" ereqW.name ++ ["cmssw"]) =
      fsProj.readFile (kernelsDir "/u" ereqW.old_name ++ ["cmssw"]) ∧
    (EditProjectHandler.post envW ereqW fsProj procW).fs.isDir
        (kernelsDir "/u" ereqW.name ++ ["cmssw"]) =
      fsProj.isDir (kernelsDir "/u" ereqW.old_name ++ ["cmssw"])) ∧
    (EditProjectHandler.post envW ereqW fsProj procW).fs.isDir
        (kernelsDir "/u" ereqW.name ++ ["python2"]) = false ∧
    (EditProjectHandler.post envW ereqW fsProj procW).fs.readFile
        (kernelsDir "/u" ereqW.name ++ ["python2"]) = none := by
  have h := C6_edit_kernel_dir_frame envW ereqW fsProj procW "/u"
    (by decide) (by decide) (by decide)
  exact ⟨h.1 ["cmssw"] (by decide) (by decide),
         h.2 (kernelsDir "/u" ereqW.name ++ ["python2"])
           (Or.inl (underDir_refl _))⟩

lemma writeFileOp_ok_intro (fs : FS) (p : Path) (c : String)
    (h1 : fs.isDir p = false) (h2 : fs.isDir p.dropLast = true) :
    fs.writeFileOp p c =
      .ok { fs with files := (p, c) :: fs.files.filter (fun kv => !(kv.1 == p)) } := by
  unfold FS.writeFileOp
  rw [if_neg (by simp [h1]), if_pos h2]

lemma removeKernelIfExists_skip {fs : FS} {p : Path} (h : fs.pathExists p = false) :
    removeKernelIfExists fs p = .ok (fs, []) := by
  unfold removeKernelIfExists
  rw [if_neg (by simp [h])]

lemma renameOp_no_ok_of_target {fs : FS} {old new : Path} {fs1 : FS}
    (h : fs.pathExists new = true) : fs.renameOp old new ≠ .ok fs1 := by
  intro hr
  obtain ⟨_, hnew, _⟩ := renameOp_ok hr
  rw [h] at hnew
  exact Bool.noConfusion hnew

/-- Claim C10: editing is idempotent on the files it writes: a second edit
request with the same name, stack, release, platform and user_script leaves
`.swanproject` and `.userscript` with the same content they had after the
first (successful) edit, whatever its `old_name` field is. -/
theorem C10_edit_idempotent :
    ∀ (env : Environ) (req1 req2 : EditRequest) (fs : FS) (proc1 proc2 : ProcResult)
      (home : String),
      env.get? "HOME" = some home →
      req2.name = req1.name → req2.stack = req1.stack → req2.platform = req1.platform →
      req2.release = req1.release → req2.user_script = req1.user_script →
      isOk (EditProjectHandler.post env req1 fs proc1).outcome = true →
      (EditProjectHandler.post env req2
          (EditProjectHandler.post env req1 fs proc1).fs proc2).fs.readFile
          (swanProjectFilePath home req1.name) =
        (EditProjectHandler.post env req1 fs proc1).fs.readFile
          (swanProjectFilePath home req1.name) ∧
      (EditProjectHandler.post env req2
          (EditProjectHandler.post env req1 fs proc1).fs proc2).fs.readFile
          (userScriptFilePath home req1.name) =
        (EditProjectHandler.post env req1 fs proc1).fs.readFile
          (userScriptFilePath home req1.name) := by
  intro env req1 req2 fs proc1 proc2 home hh hname hstack hplat hrel hus h1ok
  obtain ⟨home', fs1, tr1, hh', hbranch, hrun, htail⟩ := editPost_ok h1ok
  rw [hh] at hh'
  injection hh' with hh'
  subst hh'
  obtain ⟨fs2, tr2, fs3, tr3, fs4, fs5, h2, h3, h4, h5, hrun2⟩ := editAfterRename_ok htail
  obtain ⟨hswan, huser, hpd, hnds, hndu, hp2, hp3⟩ := edit_chain_final h2 h3 h4 h5
  have hfs : (EditProjectHandler.post env req1 fs proc1).fs = fs5 := by
    rw [hrun, hrun2]
  rw [hfs]
  by_cases hn2 : req2.old_name = req2.name
  · have hrunB : EditProjectHandler.post env req2 fs5 proc2 =
        editAfterRename env req2 home fs5 [] proc2 := by
      simp only [EditProjectHandler.post, hh, if_neg (not_not_intro hn2)]
    have e2 : removeKernelIfExists fs5 (kernelsDir home req2.name ++ ["python2"]) =
        .ok (fs5, []) :=
      removeKernelIfExists_skip (by rw [hname]; exact hp2)
    have e3 : removeKernelIfExists fs5 (kernelsDir home req2.name ++ ["python3"]) =
        .ok (fs5, []) :=
      removeKernelIfExists_skip (by rw [hname]; exact hp3)
    have e4 := writeFileOp_ok_intro fs5 (swanProjectFilePath home req2.name)
      (swanProjectFileContent req2.stack req2.release req2.platform)
      (by rw [hname]; exact hnds)
      (by rw [swanfile_dropLast, hname]; exact hpd)
    have e5 := writeFileOp_ok_intro
      { fs5 with files := ((swanProjectFilePath home req2.name),
          swanProjectFileContent req2.stack req2.release req2.platform) ::
          fs5.files.filter (fun kv => !(kv.1 == swanProjectFilePath home req2.name)) }
      (userScriptFilePath home req2.name) req2.user_script
      (by show fs5.isDir (userScriptFilePath home req2.name) = false
          rw [hname]
          exact hndu)
      (by show fs5.isDir ((userScriptFilePath home req2.name).dropLast) = true
          rw [userfile_dropLast, hname]
          exact hpd)
    have hBok : isOk (EditProjectHandler.post env req2 fs5 proc2).outcome = true := by
      rw [hrunB]
      simp only [editAfterRename, e2, e3, e4, e5]
      rfl
    obtain ⟨homeB, fsB1, trB1, hhB, _, hrunBB, htailB⟩ := editPost_ok hBok
    rw [hh] at hhB
    injection hhB with hhB
    subst hhB
    obtain ⟨fsB2, trB2, fsB3, trB3, fsB4, fsB5, hB2, hB3, hB4, hB5, hrunB2⟩ :=
      editAfterRename_ok htailB
    obtain ⟨hswanB, huserB, _⟩ := edit_chain_final hB2 hB3 hB4 hB5
    have hswan' : fs5.readFile (swanProjectFilePath home req2.name) =
        some (swanProjectFileContent req1.stack req1.release req1.platform) := by
      rw [hname]
      exact hswan
    have huser' : fs5.readFile (userScriptFilePath home req2.name) =
        some req1.user_script := by
      rw [hname]
      exact huser
    rw [hrunBB, hrunB2]
    constructor
    · rw [← hname, hswanB, hswan', hstack, hrel, hplat]
    · rw [← hname, huserB, huser', hus]
  · have hpd' : fs5.pathExists (projectDir home req2.name) = true := by
      unfold FS.pathExists
      rw [hname, hpd]
      rfl
    cases hr : fs5.renameOp (projectDir home req2.old_name) (projectDir home req2.name) with
    | ok fsB1 => exact absurd hr (renameOp_no_ok_of_target hpd')
    | error e =>
      have hrunB : EditProjectHandler.post env req2 fs5 proc2 =
          ⟨fs5, [], [], .error e⟩ := by
        simp only [EditProjectHandler.post, hh, if_pos hn2, hr]
      rw [hrunB]
      exact ⟨rfl, rfl⟩

/-- Witness for C10 at a concrete pair of identical edit requests. -/
theorem C10_witness :
    (EditProjectHandler.post envW ereqW
        (EditProjectHandler.post envW ereqW fsProj procW).fs procF).fs.readFile
        (swanProjectFilePath "/u" ereqW.name) =
      (EditProjectHandler.post envW ereqW fsProj procW).fs.readFile
        (swanProjectFilePath "/u" ereqW.name) ∧
    (EditProjectHandler.post envW ereqW
        (EditProjectHandler.post envW ereqW fsProj procW).fs procF).fs.readFile
        (userScriptFilePath "/u" ereqW.name) =
      (EditProjectHandler.post envW ereqW fsProj procW).fs.readFile
        (userScriptFilePath "/u" ereqW.name) :=
  C10_edit_idempotent envW ereqW ereqW fsProj procW procF "/u"
    (by decide) rfl rfl rfl rfl rfl (by decide)

end SwanProjects
